import Mathlib

/-!
Verification development for the Columbia County GTFS BRouter tooling
(`src/brouter.py`, `src/main.py`).

Strings are modelled as lists of characters (`Str`).  Python floats that
appear in URLs are modelled as exact decimal numbers (`PFloat`): every
float literal the program prints or parses is a finite decimal, and the
program only ever formats, parses and compares them.  Geodesic distance
(the third-party `geopy` call) is an uninterpreted parameter of the
functions that use it, returning an exact rational number of meters.
File-system state (the stops / nogos / guides CSV files) is modelled
explicitly, with boolean flags standing for the success or failure of
the individual read/write system calls the code wraps in try/except.
-/

/-- Python strings, modelled as lists of characters. -/
abbrev Str := List Char

/-- Coerce a Lean string literal to the `Str` model. -/
def strLit (s : String) : Str := s.data

/-- `s.split(sep, 1)` when `sep` occurs: the pieces before and after the
first occurrence of `sep`. `none` when `sep` does not occur. -/
def splitFirst (sep : Char) : Str → Option (Str × Str)
  | [] => none
  | c :: cs =>
    if c = sep then some ([], cs)
    else (splitFirst sep cs).map (fun p => (c :: p.1, p.2))

/-- Python `s.split(sep)`: split on every occurrence of `sep`;
the empty string yields `[""]`. -/
def splitSep (sep : Char) : Str → List Str
  | [] => [[]]
  | c :: cs =>
    if c = sep then [] :: splitSep sep cs
    else
      match splitSep sep cs with
      | [] => [[c]]
      | t :: ts => (c :: t) :: ts

/-- Python `sep.join(pieces)`. -/
def joinSep (sep : Char) : List Str → Str
  | [] => []
  | [x] => x
  | x :: xs => x ++ sep :: joinSep sep xs

/-- Python `s.count(c)` for a single character. -/
def countChar (c : Char) (s : Str) : Nat := (s.filter (· = c)).length

/-- The decimal digit characters. -/
def digitChar : Nat → Char
  | 0 => '0' | 1 => '1' | 2 => '2' | 3 => '3' | 4 => '4'
  | 5 => '5' | 6 => '6' | 7 => '7' | 8 => '8' | 9 => '9'
  | _ => '*'

/-- Inverse of `digitChar` on actual digit characters. -/
def charToDigit (c : Char) : Option Nat :=
  if '0' ≤ c ∧ c ≤ '9' then some (c.toNat - '0'.toNat) else none

/-- Base-10 digits, least significant first, with explicit fuel so the
function is structurally recursive. -/
def natDigitsFuel : Nat → Nat → List Nat
  | 0, _ => []
  | _ + 1, 0 => []
  | fuel + 1, n + 1 => (n + 1) % 10 :: natDigitsFuel fuel ((n + 1) / 10)

/-- Digit characters of a natural number, most significant first
(Python `str` of a nonnegative integer). -/
def natDigitChars (n : Nat) : Str :=
  if n = 0 then ['0'] else ((natDigitsFuel n n).map digitChar).reverse

/-- Python `str` of an `int`. -/
def fmtInt (i : Int) : Str :=
  if i < 0 then '-' :: natDigitChars i.natAbs else natDigitChars i.natAbs

/-- Read every character as a digit, or fail. -/
def toDigitList : Str → Option (List Nat)
  | [] => some []
  | c :: cs =>
    match charToDigit c, toDigitList cs with
    | some d, some ds => some (d :: ds)
    | _, _ => none

/-- Value of a digit list, most significant first. -/
def valMSB (ds : List Nat) : Nat := ds.foldl (fun a d => 10 * a + d) 0

/-- Parse a nonempty all-digit string (`int` on nonnegative input). -/
def parseDigits (s : Str) : Option Nat :=
  match s with
  | [] => none
  | _ => (toDigitList s).map valMSB

/-- A Python float as the exact decimal `m / 10 ^ e`.  Finite decimals
are exactly the values the program formats into and parses out of URLs. -/
structure PFloat where
  m : Int
  e : Nat
deriving DecidableEq

/-- Python `str` of a float / int literal: the digits of `m`, with a
decimal point before the last `e` digits (zero-padded as needed). -/
def fmtPFloat (x : PFloat) : Str :=
  if x.e = 0 then fmtInt x.m
  else
    let ds := natDigitChars x.m.natAbs
    let padded := List.replicate (x.e + 1 - ds.length) '0' ++ ds
    let ip := padded.take (padded.length - x.e)
    let fp := padded.drop (padded.length - x.e)
    (if x.m < 0 then ['-'] else []) ++ ip ++ '.' :: fp

/-- Strip a leading sign: the sign flag and the remaining text. -/
def splitSign : Str → Bool × Str
  | [] => (false, [])
  | c :: r =>
    if c = '-' then (true, r) else if c = '+' then (false, r) else (false, c :: r)

/-- Python `float` on strings of the shape `[+-]digits[.digits]`
(the shapes `str` produces; scientific notation is outside the model). -/
def parsePFloat (s : Str) : Option PFloat :=
  let sg := splitSign s
  let neg := sg.1
  let body := sg.2
  let mkF : Nat → Nat → PFloat := fun n e =>
    ⟨if neg then -(n : Int) else (n : Int), e⟩
  match splitFirst '.' body with
  | none => (parseDigits body).map (fun n => mkF n 0)
  | some (ip, fp) =>
    if ip.isEmpty ∧ fp.isEmpty then none
    else
      match (if ip.isEmpty then some 0 else parseDigits ip),
            (if fp.isEmpty then some 0 else parseDigits fp) with
      | some ipn, some fpn => some (mkF (ipn * 10 ^ fp.length + fpn) fp.length)
      | _, _ => none

/-- Python `int` on a string (after `strip`): optional sign, digits only. -/
def parseInt (s : Str) : Option Int :=
  let sg := splitSign s
  (parseDigits sg.2).map (fun n => if sg.1 then -(n : Int) else (n : Int))

/-- Python `str.strip()` restricted to spaces. -/
def stripSpaces (s : Str) : Str :=
  (s.dropWhile (· = ' ')).reverse.dropWhile (· = ' ') |>.reverse

/-- `int(float(s))`: truncation toward zero of a `PFloat`. -/
def PFloat.truncInt (x : PFloat) : Int := Int.tdiv x.m (10 ^ x.e)

/-- Characters a formatted number can contain. -/
def isNumChar (c : Char) : Prop := c = '-' ∨ c = '.' ∨ (charToDigit c).isSome

instance (c : Char) : Decidable (isNumChar c) := by
  unfold isNumChar; infer_instance

/-- Lower-case a character (ASCII). -/
def lowerChar (c : Char) : Char :=
  if 65 ≤ c.toNat ∧ c.toNat ≤ 90 then Char.ofNat (c.toNat + 32) else c

/-- Python `s.lower()` (ASCII fragment). -/
def toLowerStr (s : Str) : Str := s.map lowerChar

/-- Does `pre` start the string `s`? -/
def startsWith : Str → Str → Bool
  | [], _ => true
  | _ :: _, [] => false
  | a :: as, b :: bs => a = b && startsWith as bs

/-- Python `needle in haystack` on strings. -/
def containsStr (needle : Str) : Str → Bool
  | [] => needle.isEmpty
  | c :: rest => startsWith needle (c :: rest) || containsStr needle rest

/-- Characters `urllib` accepts in a URL scheme. -/
def isSchemeChar (c : Char) : Bool :=
  (65 ≤ c.toNat && c.toNat ≤ 90) || (97 ≤ c.toNat && c.toNat ≤ 122) ||
  (48 ≤ c.toNat && c.toNat ≤ 57) || c = '+' || c = '-' || c = '.'

/-- The components of `urllib.parse.urlparse` the program reads. -/
structure ParsedUrl where
  scheme : Str
  netloc : Str
  query : Str
  fragment : Str
deriving DecidableEq

/-- Model of `urllib.parse.urlparse` (percent-decoding omitted): the
fragment is everything after the first `#`; a scheme is a nonempty
prefix of scheme characters before `:`; the netloc follows `//` up to
the next `/` or `?`; the query follows the first `?` of the rest. -/
def pyUrlparse (url : Str) : ParsedUrl :=
  let hashSplit : Str × Str :=
    match splitFirst '#' url with
    | some p => p
    | none => (url, [])
  let rest0 := hashSplit.1
  let frag := hashSplit.2
  let schemeSplit : Str × Str :=
    match splitFirst ':' rest0 with
    | some p => if p.1 ≠ [] ∧ p.1.all isSchemeChar then (toLowerStr p.1, p.2) else ([], rest0)
    | none => ([], rest0)
  let rest1 := schemeSplit.2
  let netlocSplit : Str × Str :=
    if rest1.take 2 = ['/', '/'] then
      let after := rest1.drop 2
      (after.takeWhile (fun c => ¬ (c = '/' ∨ c = '?')),
       after.dropWhile (fun c => ¬ (c = '/' ∨ c = '?')))
    else ([], rest1)
  let query : Str :=
    match splitFirst '?' netlocSplit.2 with
    | some p => p.2
    | none => []
  ⟨schemeSplit.1, netlocSplit.1, query, frag⟩

/-- Dictionary built by assignment in a loop: the *last* binding of a
key wins (`query_params[key] = value`). -/
def lookupLast {β : Type} : List (Str × β) → Str → Option β
  | [], _ => none
  | (k', v) :: rest, k =>
    match lookupLast rest k with
    | some r => some r
    | none => if k' = k then some v else none

/-- The key=value pairs of a URL fragment: split on `&`, keep the parts
containing `=`, split each at its first `=`. -/
def fragmentPairs (frag : Str) : List (Str × Str) :=
  (splitSep '&' frag).filterMap (splitFirst '=')

/-- First value bound to `name` by `urllib.parse.parse_qs` (model:
split on `&`, keep `key=value` parts with a nonempty value;
percent-decoding omitted). -/
def parseQsFirst (query : Str) (name : Str) : Option Str :=
  (((splitSep '&' query).filterMap (splitFirst '=')).filter
      (fun p => p.1 = name ∧ p.2 ≠ [])).head?.map (·.2)

/-- The parameter-locating logic every `extract_*_from_brouter_url`
function repeats: prefer fragment key=value pairs, fall back to the
query string when there is no fragment. -/
def getParamValue (url : Str) (name : Str) : Option Str :=
  let parsed := pyUrlparse url
  if parsed.fragment ≠ [] then lookupLast (fragmentPairs parsed.fragment) name
  else parseQsFirst parsed.query name

/-- The item loop of `extract_coords_from_brouter_url`: keep pairs that
contain a comma and whose two fields parse as floats, skip the rest. -/
def coordsLoop : List Str → List (PFloat × PFloat)
  | [] => []
  | p :: rest =>
    if countChar ',' p ≥ 1 then
      match splitFirst ',' p with
      | some (a, b) =>
        match parsePFloat a, parsePFloat b with
        | some lon, some lat => (lon, lat) :: coordsLoop rest
        | _, _ => coordsLoop rest
      | none => coordsLoop rest
    else coordsLoop rest

/-- `extract_coords_from_brouter_url` (src/brouter.py:179). -/
def extract_coords_from_brouter_url (url : Str) : List (PFloat × PFloat) :=
  match getParamValue url (strLit "lonlats") with
  | none => []
  | some v => if v = [] then [] else coordsLoop (splitSep ';' v)

/-- The item loop of `extract_nogos_from_brouter_url`: keep triplets
with exactly two commas whose fields parse as float, float, int(float). -/
def nogosLoop : List Str → List (PFloat × PFloat × Int)
  | [] => []
  | t :: rest =>
    if countChar ',' t = 2 then
      match splitSep ',' t with
      | [lonS, latS, radS] =>
        match parsePFloat lonS, parsePFloat latS, parsePFloat radS with
        | some lon, some lat, some rad => (lon, lat, rad.truncInt) :: nogosLoop rest
        | _, _, _ => nogosLoop rest
      | _ => nogosLoop rest
    else nogosLoop rest

/-- `extract_nogos_from_brouter_url` (src/brouter.py:13). -/
def extract_nogos_from_brouter_url (url : Str) : List (PFloat × PFloat × Int) :=
  match getParamValue url (strLit "nogos") with
  | none => []
  | some v => if v = [] then [] else nogosLoop (splitSep ';' v)

/-- The item loop of `extract_pois_from_brouter_url`: keep triplets with
at least two commas; the label is the remainder after the second comma. -/
def poisLoop : List Str → List (PFloat × PFloat × Str)
  | [] => []
  | t :: rest =>
    if countChar ',' t ≥ 2 then
      match splitSep ',' t with
      | lonS :: latS :: labelParts =>
        match parsePFloat lonS, parsePFloat latS with
        | some lon, some lat => (lon, lat, joinSep ',' labelParts) :: poisLoop rest
        | _, _ => poisLoop rest
      | _ => poisLoop rest
    else poisLoop rest

/-- `extract_pois_from_brouter_url` (src/brouter.py:70). -/
def extract_pois_from_brouter_url (url : Str) : List (PFloat × PFloat × Str) :=
  match getParamValue url (strLit "pois") with
  | none => []
  | some v => if v = [] then [] else poisLoop (splitSep ';' v)

/-- The index loop of `extract_straight_from_brouter_url`. -/
def straightLoop : List Str → List Int
  | [] => []
  | s :: rest =>
    match parseInt (stripSpaces s) with
    | some i => i :: straightLoop rest
    | none => straightLoop rest

/-- `extract_straight_from_brouter_url` (src/brouter.py:128). -/
def extract_straight_from_brouter_url (url : Str) : List Int :=
  match getParamValue url (strLit "straight") with
  | none => []
  | some v => if v = [] then [] else straightLoop (splitSep ',' v)

/-- A stop dictionary as consumed by `generate_brouter_urls`
(`stop_id`, `stop_lon`, `stop_lat`). -/
structure StopEntry where
  stop_id : Str
  stop_lon : PFloat
  stop_lat : PFloat
deriving DecidableEq

/-- A trip dictionary: `trip_id`, optional `shape_id` (`trip.get`),
and `stop_times` as (arrival time, stop id) pairs. -/
structure Trip where
  trip_id : Str
  shape_id : Option Str
  stop_times : List (Str × Str)
deriving DecidableEq

/-- Python truthiness of `trip.get("shape_id")`: neither `None` nor `""`. -/
def shapeTruthy : Option Str → Bool
  | none => false
  | some s => ¬ s.isEmpty

/-- A guide tuple as passed to `generate_brouter_urls`: its own
docstring promises `(lon, lat, position)` triples, while
`load_guides_from_csv` in `main.py` builds `(lon, lat, position, order)`
quadruples; both arities flow into the same parameter. -/
inductive GuideTup
  | g3 (lon lat : PFloat) (position : Int)
  | g4 (lon lat : PFloat) (position : Int) (ord : Int)
deriving DecidableEq

/-- `x[2]` of a guide tuple (the sort key at src/brouter.py:284). -/
def GuideTup.posKey : GuideTup → Int
  | .g3 _ _ p => p
  | .g4 _ _ p _ => p

/-- `lon, lat, position = t`: Python unpacking of a tuple into three
names, a `ValueError` when the tuple has a fourth component. -/
def GuideTup.unpack3 : GuideTup → Option (PFloat × PFloat × Int)
  | .g3 lon lat p => some (lon, lat, p)
  | .g4 _ _ _ _ => none

/-- Stable insertion into a list sorted by `le` (new element goes after
existing equal elements' predecessors: before the first strictly-later
element, after equals seen so far are kept in place). -/
def insertLe {α : Type} (le : α → α → Bool) (x : α) : List α → List α
  | [] => [x]
  | y :: ys => if le x y then x :: y :: ys else y :: insertLe le x ys

/-- Stable sort (Python `sorted`): foldr insertion keeps the original
relative order of elements with equal keys. -/
def stableSort {α : Type} (le : α → α → Bool) : List α → List α
  | [] => []
  | x :: xs => insertLe le x (stableSort le xs)

/-- Lexicographic `≤` on strings by code point (Python string compare). -/
def strLe : Str → Str → Bool
  | [], _ => true
  | _ :: _, [] => false
  | a :: as, b :: bs =>
    if a.toNat < b.toNat then true
    else if b.toNat < a.toNat then false
    else strLe as bs

/-- `sorted(stop_times, key=lambda x: x[0])`. -/
def sortedStopTimes (ts : List (Str × Str)) : List (Str × Str) :=
  stableSort (fun a b => strLe a.1 b.1) ts

/-- Dict comprehension `{s["stop_id"]: (lon, lat) for s in stops}`:
later entries overwrite earlier ones. -/
def stopLookup (stops : List StopEntry) (sid : Str) : Option (PFloat × PFloat) :=
  lookupLast (stops.map (fun s => (s.stop_id, (s.stop_lon, s.stop_lat)))) sid

/-- `list.insert(i, x)` for `0 ≤ i ≤ len`. -/
def insertAtPos {α : Type} (i : Nat) (x : α) : List α → List α
  | [] => [x]
  | y :: ys =>
    match i with
    | 0 => x :: y :: ys
    | i' + 1 => y :: insertAtPos i' x ys

/-- The guide-insertion loop of `generate_brouter_urls`
(src/brouter.py:287): iterate the position-sorted guides in reverse,
unpack each as a triple (a `ValueError` stops the generator on a
quadruple), insert in-range guides and record a `"GUIDE"` POI. -/
def guideInsertLoop :
    List GuideTup → List (PFloat × PFloat) → List (PFloat × PFloat × Str) →
    Except Unit (List (PFloat × PFloat) × List (PFloat × PFloat × Str))
  | [], coords, pois => .ok (coords, pois)
  | g :: gs, coords, pois =>
    match g.unpack3 with
    | none => .error ()
    | some (lon, lat, position) =>
      if 0 ≤ position ∧ position ≤ (coords.length : Int) then
        guideInsertLoop gs (insertAtPos position.toNat (lon, lat) coords)
          (pois ++ [(lon, lat, strLit "GUIDE")])
      else guideInsertLoop gs coords pois

/-- Association-list lookup standing for Python dict membership/access
on the nogos/guides/straights parameters (an empty list doubles as the
falsy `None` / `{}`). -/
def dictFind {β : Type} : List (Str × β) → Str → Option β
  | [], _ => none
  | (k', v) :: rest, k => if k' = k then some v else dictFind rest k

/-- `if dct and shape_id and shape_id in dct: dct[shape_id]`. -/
def shapeLookup {β : Type} (dct : List (Str × β)) (shape : Option Str) : Option β :=
  match shape with
  | none => none
  | some sid => if sid.isEmpty then none else dictFind dct sid

/-- Fixed URL head of `generate_brouter_urls` (src/brouter.py:253). -/
def brouterBase : Str :=
  strLit "https://brouter.de/brouter-web/#map=11/42.4655/-73.6002/standard&lonlats="

/-- Fixed URL suffix of `generate_brouter_urls` (src/brouter.py:254). -/
def brouterSuffix : Str := strLit "&profile=car-fast"

/-- One serialized `lon,lat` pair. -/
def pairStr (c : PFloat × PFloat) : Str := fmtPFloat c.1 ++ ',' :: fmtPFloat c.2

/-- The per-trip coordinate pipeline of `generate_brouter_urls`:
time-sorted visits resolved through the stop table (unknown ids
skipped), then guide insertion for the trip's shape.  `none` when the
trip is skipped (no stop_times or no resolvable coordinates). -/
def tripCoordsAndPois (stops : List StopEntry) (guides : List (Str × List GuideTup))
    (t : Trip) :
    Except Unit (Option (List (PFloat × PFloat) × List (PFloat × PFloat × Str))) :=
  if t.stop_times = [] then .ok none
  else
    let coords0 := (sortedStopTimes t.stop_times).filterMap
      (fun v => stopLookup stops v.2)
    if coords0 = [] then .ok none
    else
      match shapeLookup guides t.shape_id with
      | none => .ok (some (coords0, []))
      | some gs =>
        match guideInsertLoop (stableSort (fun a b => a.posKey ≤ b.posKey) gs).reverse
            coords0 [] with
        | .error e => .error e
        | .ok r => .ok (some r)

/-- The `&nogos=` URL parameter for a trip's shape (src/brouter.py:296),
empty when the shape has no nogos. -/
def nogosParamStr (nogos : List (Str × List (PFloat × PFloat × Int))) (t : Trip) :
    Str :=
  match shapeLookup nogos t.shape_id with
  | none => []
  | some ns =>
    if ns = [] then []
    else strLit "&nogos=" ++
      joinSep ';' (ns.map (fun n => fmtPFloat n.1 ++ ',' :: fmtPFloat n.2.1 ++
        ',' :: fmtInt n.2.2))

/-- The `&pois=` URL parameter for the inserted guide points
(src/brouter.py:304), empty when no guides were inserted. -/
def poisParamStr (guidePois : List (PFloat × PFloat × Str)) : Str :=
  if guidePois = [] then []
  else strLit "&pois=" ++
    joinSep ';' (guidePois.map (fun p => fmtPFloat p.1 ++ ',' :: fmtPFloat p.2.1 ++
      ',' :: p.2.2))

/-- The `&straight=` URL parameter for a trip's shape
(src/brouter.py:313), empty when the shape has no straight indices. -/
def straightParamStr (straights : List (Str × List Int)) (t : Trip) : Str :=
  match shapeLookup straights t.shape_id with
  | none => []
  | some idxs =>
    if idxs = [] then []
    else strLit "&straight=" ++ joinSep ',' (idxs.map fmtInt)

/-- URL assembly of `generate_brouter_urls` (src/brouter.py:292): base +
lonlats + profile suffix + optional nogos / pois / straight parameters,
each omitted when its source collection is empty. -/
def buildTripUrl (nogos : List (Str × List (PFloat × PFloat × Int)))
    (straights : List (Str × List Int)) (t : Trip)
    (coords : List (PFloat × PFloat)) (guidePois : List (PFloat × PFloat × Str)) :
    Str :=
  brouterBase ++ joinSep ';' (coords.map pairStr) ++ brouterSuffix ++
    nogosParamStr nogos t ++ poisParamStr guidePois ++ straightParamStr straights t

/-- One trip of the generator loop: `none` when the trip is skipped,
otherwise the dedup key `(trip.get("shape_id"), url)` together with the
emitted identifier (`shape_id or trip_id`) and the URL. -/
def tripLine (stops : List StopEntry) (nogos : List (Str × List (PFloat × PFloat × Int)))
    (guides : List (Str × List GuideTup)) (straights : List (Str × List Int))
    (t : Trip) : Except Unit (Option ((Option Str × Str) × (Str × Str))) :=
  match tripCoordsAndPois stops guides t with
  | .error e => .error e
  | .ok none => .ok none
  | .ok (some (coords, guidePois)) =>
    let url := buildTripUrl nogos straights t coords guidePois
    let ident := if shapeTruthy t.shape_id then t.shape_id.getD [] else t.trip_id
    .ok (some ((t.shape_id, url), (ident, url)))

/-- The generator loop of `generate_brouter_urls` with its `seen` set:
emit each line whose key has not been seen. -/
def generateLoop (stops : List StopEntry)
    (nogos : List (Str × List (PFloat × PFloat × Int)))
    (guides : List (Str × List GuideTup)) (straights : List (Str × List Int)) :
    List Trip → List (Option Str × Str) → Except Unit (List (Str × Str))
  | [], _ => .ok []
  | t :: ts, seen =>
    match tripLine stops nogos guides straights t with
    | .error e => .error e
    | .ok none => generateLoop stops nogos guides straights ts seen
    | .ok (some (key, line)) =>
      if key ∈ seen then generateLoop stops nogos guides straights ts seen
      else
        match generateLoop stops nogos guides straights ts (key :: seen) with
        | .error e => .error e
        | .ok rest => .ok (line :: rest)

/-- `generate_brouter_urls` (src/brouter.py:235), as the list of yielded
(identifier, url) lines; `.error` when the loop raises (the guide-tuple
unpacking `ValueError`). -/
def generate_brouter_urls (trips : List Trip) (stops : List StopEntry)
    (nogos : List (Str × List (PFloat × PFloat × Int)))
    (guides : List (Str × List GuideTup)) (straights : List (Str × List Int)) :
    Except Unit (List (Str × Str)) :=
  generateLoop stops nogos guides straights trips []

/-- A row of stops.csv (the columns the code reads/writes). -/
structure StopRow where
  stop_id : Str
  stop_name : Str
  stop_lat : PFloat
  stop_lon : PFloat
deriving DecidableEq

/-- stops.csv as loaded by pandas: header columns plus rows.  The
required-column check inspects `cols`; row field access is typed. -/
structure StopsFile where
  cols : List Str
  rows : List StopRow
deriving DecidableEq

/-- A row of nogos.csv. -/
structure NogoRow where
  shape_id : Str
  stop_lat : PFloat
  stop_lon : PFloat
  radius : Int
deriving DecidableEq

/-- A row of guides.csv as written by the reconciler. -/
structure GuideRow where
  shape_id : Str
  stop_lat : PFloat
  stop_lon : PFloat
  position : Int
deriving DecidableEq

/-- The files the reconciler touches. `none` = file absent (stops:
`FileNotFoundError` on read; nogos/guides: created before updating). -/
structure FileSys where
  stops : Option StopsFile
  nogos : Option (List NogoRow)
  guides : Option (List GuideRow)
deriving DecidableEq

/-- Arguments and I/O fate of one `update_stop_positions_from_url` call.
The `...IoOk` flags decide whether the corresponding guarded
write/read-write raises (the code wraps them in try/except). -/
structure RecArgs where
  url : Str
  trip_id : Str
  trips : List Trip
  nogosCfg : Bool
  guidesCfg : Bool
  stopsWriteOk : Bool
  nogosIoOk : Bool
  guidesIoOk : Bool

/-- One entry of the result's `updates` list. -/
inductive UpdateRec
  | notFound (stop_id : Str)
  | upd (stop_id stop_name : Str) (old_lon old_lat new_lon new_lat : PFloat)
      (distance_m : ℚ) (moved : Bool)
deriving DecidableEq

/-- The `nogos_info` sub-result. -/
structure NogosInfo where
  created : Bool := false
  updated : Bool := false
  count : Nat := 0
  nogos : List (PFloat × PFloat × Int) := []
  ioErr : Bool := false
deriving DecidableEq

/-- The `guides_info` sub-result. -/
structure GuidesInfo where
  created : Bool := false
  updated : Bool := false
  count : Nat := 0
  guides : List (PFloat × PFloat × Int) := []
  ioErr : Bool := false
deriving DecidableEq

/-- The success dictionary returned by `update_stop_positions_from_url`. -/
structure RecOk where
  trip_id : Str
  total_stops : Nat
  stops_moved : Nat
  total_distance_m : ℚ
  avg_distance_m : ℚ
  updates : List UpdateRec
  straight_indices : List Int
  nogos_info : NogosInfo
  guides_info : GuidesInfo
deriving DecidableEq

/-- The result of `update_stop_positions_from_url`: each early-return
error dictionary, or the success dictionary. -/
inductive RecResult
  | errInvalidUrl
  | errNotBrouter
  | errNoCoords
  | errTripNotFound (available : List Str)
  | errStopsMissing
  | errBadColumns (missing : List Str)
  | errMismatch (url_coords stop_coords trip_stops detected_guides : Nat)
  | errSaveStops
  | ok (r : RecOk)
deriving DecidableEq

/-- A geodesic-distance oracle: meters between two (lat, lon) points
(the third-party `geopy.distance.geodesic(...).meters`). -/
abbrev DistFn := (PFloat × PFloat) → (PFloat × PFloat) → ℚ

/-- URL validation (src/brouter.py:354): scheme and netloc must be
present and the netloc must contain "brouter". -/
def validateBrouterUrl (url : Str) : Option RecResult :=
  let parsed := pyUrlparse url
  if parsed.scheme = [] ∨ parsed.netloc = [] then some .errInvalidUrl
  else if ¬ containsStr (strLit "brouter") (toLowerStr parsed.netloc) then
    some .errNotBrouter
  else none

/-- The required stops.csv columns (src/brouter.py:391). -/
def requiredColumns : List Str :=
  [strLit "stop_id", strLit "stop_lat", strLit "stop_lon", strLit "stop_name"]

/-- `next((t for t in trips if t['trip_id'] == trip_id), None)`. -/
def findTrip (trips : List Trip) (tid : Str) : Option Trip :=
  trips.find? (fun t => t.trip_id = tid)

/-- Greedy search for the decoded coordinate closest to one guide POI
(src/brouter.py:405): scan all coordinates, skip indices already
claimed, keep the strictly closest point within 100 meters. -/
def closestCoord (dist : DistFn) (guide : PFloat × PFloat)
    (claimed : List Nat) (coords : List (PFloat × PFloat)) : Option Nat :=
  let step := fun (acc : Option ℚ × Option Nat) (ic : Nat × (PFloat × PFloat)) =>
    if ic.1 ∈ claimed then acc
    else
      let d := dist (ic.2.2, ic.2.1) (guide.2, guide.1)
      if ((match acc.1 with | none => true | some b => decide (d < b)) &&
          decide (d ≤ 100)) = true then
        (some d, some ic.1)
      else acc
  (coords.enum.foldl step (none, none)).2

/-- The guide-matching loop (src/brouter.py:404): claim for each GUIDE
POI the nearest unclaimed decoded coordinate within 100 m; unmatched
POIs are dropped.  Returns the claimed index set (in claim order) and
the `detected_guides` list `(lon, lat, index)`. -/
def guideMatch (dist : DistFn) (coords : List (PFloat × PFloat)) :
    List (PFloat × PFloat) → List Nat → List (PFloat × PFloat × Nat) →
    List Nat × List (PFloat × PFloat × Nat)
  | [], claimed, detected => (claimed, detected)
  | g :: gs, claimed, detected =>
    match closestCoord dist g claimed coords with
    | none => guideMatch dist coords gs claimed detected
    | some i =>
      match coords[i]? with
      | none => guideMatch dist coords gs claimed detected
      | some c => guideMatch dist coords gs (claimed ++ [i]) (detected ++ [(c.1, c.2, i)])

/-- `stop_coords`: the decoded coordinates whose index was not claimed
as a guide (src/brouter.py:424). -/
def stopOnlyCoords (coords : List (PFloat × PFloat)) (claimed : List Nat) :
    List (PFloat × PFloat) :=
  (coords.enum.filter (fun ic => ic.1 ∉ claimed)).map (·.2)

/-- Update one row set for a moved stop: every row with this `stop_id`
gets the new coordinates (`df.loc[df['stop_id'] == stop_id, ...]`). -/
def setStopCoords (rows : List StopRow) (sid : Str) (newLat newLon : PFloat) :
    List StopRow :=
  rows.map (fun r => if r.stop_id = sid then
    { r with stop_lat := newLat, stop_lon := newLon } else r)

/-- The compare-and-update loop (src/brouter.py:443): for each stop-only
coordinate and its visit, look the stop up (first matching row), record
a per-stop error when absent, otherwise compute the distance, mark
moved when `> 1.0` m, accumulate the statistics and update the rows. -/
def applyStopUpdates (dist : DistFn) :
    List ((PFloat × PFloat) × (Str × Str)) → List StopRow →
    List UpdateRec → Nat → ℚ → List StopRow × List UpdateRec × Nat × ℚ
  | [], rows, updates, moved, total => (rows, updates, moved, total)
  | (c, visit) :: rest, rows, updates, moved, total =>
    let sid := visit.2
    match rows.find? (fun r => r.stop_id = sid) with
    | none => applyStopUpdates dist rest rows (updates ++ [.notFound sid]) moved total
    | some row =>
      let d := dist (row.stop_lat, row.stop_lon) (c.2, c.1)
      let isMoved : Bool := d > 1
      let rows' := if isMoved then setStopCoords rows sid c.2 c.1 else rows
      applyStopUpdates dist rest rows'
        (updates ++ [.upd sid row.stop_name row.stop_lon row.stop_lat c.1 c.2 d isMoved])
        (if isMoved then moved + 1 else moved)
        (if isMoved then total + d else total)

/-- The nogos side-table section (src/brouter.py:488): when a nogos path
is configured, nogos were decoded and the trip has a truthy shape id,
create the file if absent, then (unless the guarded I/O raises) replace
this shape's rows by the decoded nogos. -/
def nogosSection (a : RecArgs) (trip : Trip) (fs : FileSys) :
    NogosInfo × FileSys :=
  if ¬ a.nogosCfg then ({}, fs)
  else
    let nogosFromUrl := extract_nogos_from_brouter_url a.url
    if nogosFromUrl ≠ [] ∧ shapeTruthy trip.shape_id then
      let sid := trip.shape_id.getD []
      let created := fs.nogos.isNone
      let tbl0 : List NogoRow := fs.nogos.getD []
      let fs1 : FileSys := { fs with nogos := some tbl0 }
      if ¬ a.nogosIoOk then ({ created := created, ioErr := true }, fs1)
      else
        let kept := tbl0.filter (fun r => r.shape_id ≠ sid)
        let newRows := nogosFromUrl.map
          (fun n => NogoRow.mk sid n.2.1 n.1 n.2.2)
        ({ created := created, updated := true, count := newRows.length,
           nogos := nogosFromUrl },
         { fs1 with nogos := some (kept ++ newRows) })
    else ({}, fs)

/-- `position = original_position - #{detected with smaller index}`
(src/brouter.py:553). -/
def recomputedGuideRows (sid : Str) (detected : List (PFloat × PFloat × Nat)) :
    List GuideRow :=
  detected.map (fun g =>
    let smaller := (detected.filter (fun g' => g'.2.2 < g.2.2)).length
    GuideRow.mk sid g.2.1 g.1 ((g.2.2 : Int) - (smaller : Int)))

/-- The guides side-table section (src/brouter.py:533): when a guides
path is configured, guides were detected and the trip has a truthy
shape id, create the file if absent, then (unless the guarded I/O
raises) replace this shape's rows by the recomputed detected guides. -/
def guidesSection (a : RecArgs) (trip : Trip)
    (detected : List (PFloat × PFloat × Nat)) (fs : FileSys) :
    GuidesInfo × FileSys :=
  if a.guidesCfg ∧ detected ≠ [] ∧ shapeTruthy trip.shape_id then
    let sid := trip.shape_id.getD []
    let created := fs.guides.isNone
    let tbl0 : List GuideRow := fs.guides.getD []
    let fs1 : FileSys := { fs with guides := some tbl0 }
    if ¬ a.guidesIoOk then ({ created := created, ioErr := true }, fs1)
    else
      let kept := tbl0.filter (fun r => r.shape_id ≠ sid)
      let newRows := recomputedGuideRows sid detected
      ({ created := created, updated := true, count := newRows.length,
         guides := newRows.map (fun r => (r.stop_lon, r.stop_lat, r.position)) },
       { fs1 with guides := some (kept ++ newRows) })
  else ({}, fs)

/-- `update_stop_positions_from_url` (src/brouter.py:332): validate the
URL, decode coordinates / straights / GUIDE POIs, resolve the trip,
load and column-check stops.csv, match guides, check the stop-only
count, apply per-stop updates, save stops.csv, then run the nogos and
guides side-table sections.  Returns the result dictionary and the
resulting file system. -/
def update_stop_positions_from_url (dist : DistFn) (a : RecArgs) (fs : FileSys) :
    RecResult × FileSys :=
  match validateBrouterUrl a.url with
  | some e => (e, fs)
  | none =>
    let newCoords := extract_coords_from_brouter_url a.url
    if newCoords = [] then (.errNoCoords, fs)
    else
      let straightIdxs := extract_straight_from_brouter_url a.url
      let guidePois := ((extract_pois_from_brouter_url a.url).filter
        (fun p => p.2.2 = strLit "GUIDE")).map (fun p => (p.1, p.2.1))
      match findTrip a.trips a.trip_id with
      | none => (.errTripNotFound (a.trips.map (·.trip_id)), fs)
      | some trip =>
        match fs.stops with
        | none => (.errStopsMissing, fs)
        | some sf =>
          let missing := requiredColumns.filter (fun c => c ∉ sf.cols)
          if missing ≠ [] then (.errBadColumns missing, fs)
          else
            let visits := sortedStopTimes trip.stop_times
            let matched := guideMatch dist newCoords guidePois [] []
            let claimed := matched.1
            let detected := matched.2
            let stopCoords := stopOnlyCoords newCoords claimed
            if stopCoords.length ≠ visits.length then
              (.errMismatch newCoords.length stopCoords.length visits.length
                detected.length, fs)
            else
              let applied := applyStopUpdates dist (stopCoords.zip visits) sf.rows [] 0 0
              let rows' := applied.1
              let updates := applied.2.1
              let movedCount := applied.2.2.1
              let totalDist := applied.2.2.2
              if ¬ a.stopsWriteOk then (.errSaveStops, fs)
              else
                let fs1 : FileSys := { fs with stops := some { sf with rows := rows' } }
                let nres := nogosSection a trip fs1
                let gres := guidesSection a trip detected nres.2
                (.ok {
                  trip_id := a.trip_id
                  total_stops := updates.length
                  stops_moved := movedCount
                  total_distance_m := totalDist
                  avg_distance_m :=
                    if movedCount > 0 then totalDist / (movedCount : ℚ) else 0
                  updates := updates
                  straight_indices := straightIdxs
                  nogos_info := nres.1
                  guides_info := gres.1 }, gres.2)

/-- A row of guides.csv as read by `load_guides_from_csv` (main.py:71):
the `order` value is `none` when the column is absent or the cell NaN. -/
structure GuideCsvRow where
  shape_id : Str
  stop_lat : PFloat
  stop_lon : PFloat
  position : Int
  ord : Option Int
deriving DecidableEq

/-- guides.csv contents: header columns plus rows. -/
structure GuidesCsv where
  cols : List Str
  rows : List GuideCsvRow
deriving DecidableEq

/-- Append a value to a key's group, creating the group at the end on
first sight (Python dict insertion order). -/
def addToGroup {β : Type} (k : Str) (v : β) :
    List (Str × List β) → List (Str × List β)
  | [] => [(k, [v])]
  | (k', vs) :: rest =>
    if k' = k then (k', vs ++ [v]) :: rest else (k', vs) :: addToGroup k v rest

/-- The columns `load_guides_from_csv` requires. -/
def guidesRequiredColumns : List Str :=
  [strLit "shape_id", strLit "stop_lat", strLit "stop_lon", strLit "position"]

/-- `load_guides_from_csv` (main.py:71): empty mapping when the file is
absent, empty or lacks required columns; otherwise group the rows by
shape id into `(lon, lat, position, order)` quadruples (order defaulting
to 0) and sort each group by order. -/
def load_guides_from_csv (file : Option GuidesCsv) : List (Str × List GuideTup) :=
  match file with
  | none => []
  | some f =>
    if f.rows = [] ∨ ¬ guidesRequiredColumns.all (· ∈ f.cols) then []
    else
      let grouped := f.rows.foldl
        (fun d r => addToGroup r.shape_id
          (GuideTup.g4 r.stop_lon r.stop_lat r.position (r.ord.getD 0)) d) []
      grouped.map (fun g => (g.1,
        stableSort (fun a b =>
          (match a with | .g4 _ _ _ o => o | .g3 _ _ p => p) ≤
          (match b with | .g4 _ _ _ o => o | .g3 _ _ p => p)) g.2))

/-- First-occurrence deduplication by key: the declarative counterpart
of the generator's `seen` set. -/
def dedupByKey {κ β : Type} [DecidableEq κ] : List (κ × β) → List (κ × β)
  | [] => []
  | (k, l) :: rest => (k, l) :: dedupByKey (rest.filter (fun p => p.1 ≠ k))
termination_by l => l.length
decreasing_by
  exact Nat.lt_succ_of_le (List.length_filter_le _ rest)

/-- The `seen`-set dedup loop, lifted out of the generator. -/
def dedupFrom {κ β : Type} [DecidableEq κ] (seen : List κ) :
    List (κ × β) → List (κ × β)
  | [] => []
  | (k, l) :: rest =>
    if k ∈ seen then dedupFrom seen rest
    else (k, l) :: dedupFrom (k :: seen) rest

/-- All keyed lines of a trip list (before deduplication), failing where
the generator raises. -/
def collectKeyed (stops : List StopEntry)
    (nogos : List (Str × List (PFloat × PFloat × Int)))
    (guides : List (Str × List GuideTup)) (straights : List (Str × List Int)) :
    List Trip → Except Unit (List ((Option Str × Str) × (Str × Str)))
  | [] => .ok []
  | t :: ts =>
    match tripLine stops nogos guides straights t with
    | .error e => .error e
    | .ok none => collectKeyed stops nogos guides straights ts
    | .ok (some kl) =>
      match collectKeyed stops nogos guides straights ts with
      | .error e => .error e
      | .ok rest => .ok (kl :: rest)

/-- Spec-side item decoder for `lonlats`: split the item at its first
comma and convert both fields with `float`. -/
def specCoordItem (p : Str) : Option (PFloat × PFloat) :=
  match splitFirst ',' p with
  | none => none
  | some (a, b) =>
    match parsePFloat a, parsePFloat b with
    | some lon, some lat => some (lon, lat)
    | _, _ => none

/-- Spec-side item decoder for `nogos`: exactly three comma-separated
fields, `float`, `float`, `int(float(...))`. -/
def specNogoItem (t : Str) : Option (PFloat × PFloat × Int) :=
  match splitSep ',' t with
  | [lonS, latS, radS] =>
    match parsePFloat lonS, parsePFloat latS, parsePFloat radS with
    | some lon, some lat, some rad => some (lon, lat, rad.truncInt)
    | _, _, _ => none
  | _ => none

/-- Spec-side item decoder for `pois`: at least three comma-separated
fields; the label is the remainder after the second comma. -/
def specPoiItem (t : Str) : Option (PFloat × PFloat × Str) :=
  match splitSep ',' t with
  | lonS :: latS :: labelParts =>
    if labelParts = [] then none
    else
      match parsePFloat lonS, parsePFloat latS with
      | some lon, some lat => some (lon, lat, joinSep ',' labelParts)
      | _, _ => none
  | _ => none

/-- Spec-side item decoder for `straight`: one stripped integer. -/
def specStraightItem (s : Str) : Option Int := parseInt (stripSpaces s)

/-- The semicolon-split items of a parameter (empty when the parameter
is absent or empty). -/
def paramItems (url : Str) (name : Str) : List Str :=
  match getParamValue url name with
  | none => []
  | some v => if v = [] then [] else splitSep ';' v

/-- The comma-split items of the `straight` parameter. -/
def straightParamItems (url : Str) : List Str :=
  match getParamValue url (strLit "straight") with
  | none => []
  | some v => if v = [] then [] else splitSep ',' v

/-- The last moved update for a stop id, if any: its new coordinates
(lon, lat). -/
def lastMovedCoords (ups : List UpdateRec) (sid : Str) : Option (PFloat × PFloat) :=
  ups.foldl (fun acc u =>
    match u with
    | .notFound _ => acc
    | .upd sid' _ _ _ nlon nlat _ moved =>
      if sid' = sid ∧ moved then some (nlon, nlat) else acc) none

/-- Declarative final rows: each row keeps its identity; its coordinates
are overwritten by the last moved update for its stop id, if any. -/
def specFinalRows (rows : List StopRow) (ups : List UpdateRec) : List StopRow :=
  rows.map (fun r =>
    match lastMovedCoords ups r.stop_id with
    | some nc => { r with stop_lat := nc.2, stop_lon := nc.1 }
    | none => r)

/-- The moved records of an update list. -/
def movedRecs (ups : List UpdateRec) : List UpdateRec :=
  ups.filter (fun u => match u with | .upd _ _ _ _ _ _ _ moved => moved | _ => false)

/-- Total distance over the moved records. -/
def movedDistSum (ups : List UpdateRec) : ℚ :=
  (movedRecs ups).foldl (fun a u =>
    match u with | .upd _ _ _ _ _ _ d _ => a + d | _ => a) 0

/-- One fold step of `lastMovedCoords`, named for the init lemma. -/
def lmStep (sid : Str) (acc : Option (PFloat × PFloat)) (u : UpdateRec) :
    Option (PFloat × PFloat) :=
  match u with
  | .notFound _ => acc
  | .upd sid2 _ _ _ nlon nlat _ moved =>
    if sid2 = sid ∧ moved then some (nlon, nlat) else acc

/-- The file-system effect of a single update record on the stop rows:
a moved record overwrites every row with its stop id; anything else
leaves the rows alone. -/
def applyOne (rows : List StopRow) : UpdateRec → List StopRow
  | .notFound _ => rows
  | .upd sid _ _ _ nlon nlat _ moved =>
    if moved then setStopCoords rows sid nlat nlon else rows

/-- Well-formedness of one update record with respect to the distance
oracle: the recorded distance is the oracle's distance from the old
(stored) coordinate to the new one, and the moved flag holds exactly
when it exceeds 1.0 m. -/
def recFlagOk (dist : DistFn) : UpdateRec → Prop
  | .notFound _ => True
  | .upd _ _ olon olat nlon nlat d m =>
    d = dist (olat, olon) (nlat, nlon) ∧ m = decide (d > 1)

/-- Whether a reconciler result is the success dictionary. -/
def recIsOk : RecResult → Bool
  | .ok _ => true
  | _ => false

/-! ### Digit and decimal round-trip lemmas -/

theorem natDigitsFuel_eq :
    ∀ (fuel n : Nat), n ≤ fuel → natDigitsFuel fuel n = Nat.digits 10 n
  | 0, 0, _ => by simp [natDigitsFuel]
  | 0, n + 1, h => absurd h (by omega)
  | fuel + 1, 0, _ => by simp [natDigitsFuel]
  | fuel + 1, n + 1, h => by
    rw [show natDigitsFuel (fuel + 1) (n + 1) =
        (n + 1) % 10 :: natDigitsFuel fuel ((n + 1) / 10) from rfl,
      natDigitsFuel_eq fuel ((n + 1) / 10)
        (by
          have := Nat.div_lt_self (Nat.succ_pos n) (by norm_num : 1 < 10)
          omega),
      Nat.digits_def' (by norm_num : (1 : Nat) < 10) (Nat.succ_pos n)]

theorem natDigitChars_eq (n : Nat) :
    natDigitChars n =
      if n = 0 then ['0'] else ((Nat.digits 10 n).map digitChar).reverse := by
  unfold natDigitChars
  by_cases h : n = 0
  · rw [if_pos h, if_pos h]
  · rw [if_neg h, if_neg h, natDigitsFuel_eq n n le_rfl]

theorem charToDigit_digitChar {d : Nat} (h : d < 10) :
    charToDigit (digitChar d) = some d := by
  interval_cases d <;> rfl

theorem digitChar_isSome {d : Nat} (h : d < 10) :
    (charToDigit (digitChar d)).isSome := by
  rw [charToDigit_digitChar h]; rfl

theorem toDigitList_map_digitChar {M : List Nat} (h : ∀ d ∈ M, d < 10) :
    toDigitList (M.map digitChar) = some M := by
  induction M with
  | nil => rfl
  | cons d M ih =>
    simp only [List.map_cons, toDigitList,
      charToDigit_digitChar (h d (List.mem_cons_self d M)),
      ih (fun x hx => h x (List.mem_cons_of_mem d hx))]

theorem toDigitList_append {xs ys : Str} {dx dy : List Nat}
    (hx : toDigitList xs = some dx) (hy : toDigitList ys = some dy) :
    toDigitList (xs ++ ys) = some (dx ++ dy) := by
  induction xs generalizing dx with
  | nil =>
    rw [show toDigitList [] = some [] from rfl] at hx
    injection hx with h
    subst h
    simpa using hy
  | cons c cs ih =>
    rw [List.cons_append]
    unfold toDigitList at hx ⊢
    cases hc : charToDigit c with
    | none => rw [hc] at hx; exact absurd hx (by simp)
    | some d =>
      rw [hc] at hx
      cases hcs : toDigitList cs with
      | none => rw [hcs] at hx; exact absurd hx (by simp)
      | some ds =>
        rw [hcs] at hx
        rw [ih hcs]
        have hx' : some (d :: ds) = some dx := hx
        injection hx' with h
        subst h
        rfl

theorem foldl_digits_acc (l : List Nat) :
    ∀ a : Nat, l.foldl (fun a d => 10 * a + d) a =
      a * 10 ^ l.length + l.foldl (fun a d => 10 * a + d) 0 := by
  induction l with
  | nil => intro a; simp
  | cons d l ih =>
    intro a
    simp only [List.foldl_cons, List.length_cons]
    rw [ih (10 * a + d), ih (10 * 0 + d)]
    ring

theorem valMSB_append (xs ys : List Nat) :
    valMSB (xs ++ ys) = valMSB xs * 10 ^ ys.length + valMSB ys := by
  unfold valMSB
  rw [List.foldl_append, foldl_digits_acc ys (List.foldl _ 0 xs)]

theorem valMSB_reverse (L : List Nat) :
    valMSB L.reverse = Nat.ofDigits 10 L := by
  induction L with
  | nil => rfl
  | cons d L ih =>
    rw [List.reverse_cons, valMSB_append, ih, Nat.ofDigits_cons]
    simp [valMSB]
    ring

theorem valMSB_replicate_zero (k : Nat) (ds : List Nat) :
    valMSB (List.replicate k 0 ++ ds) = valMSB ds := by
  induction k with
  | zero => rfl
  | succ k ih =>
    rw [List.replicate_succ, List.cons_append]
    simpa [valMSB, List.foldl_cons] using ih

theorem natDigitChars_ne_nil (n : Nat) : natDigitChars n ≠ [] := by
  rw [natDigitChars_eq]
  split
  · simp
  · next h =>
    simp only [ne_eq, List.reverse_eq_nil_iff, List.map_eq_nil_iff]
    exact Nat.digits_ne_nil_iff_ne_zero.2 h

theorem toDigitList_natDigitChars (n : Nat) :
    ∃ ds, toDigitList (natDigitChars n) = some ds ∧ valMSB ds = n ∧
      ds.length = (natDigitChars n).length := by
  rw [natDigitChars_eq]
  split
  · next h => exact ⟨[0], rfl, by simp [valMSB, h], rfl⟩
  · next h =>
    refine ⟨(Nat.digits 10 n).reverse, ?_, ?_, by simp⟩
    · rw [← List.map_reverse]
      exact toDigitList_map_digitChar
        (fun d hd => Nat.digits_lt_base (by norm_num)
          (List.mem_reverse.mp hd))
    · rw [valMSB_reverse, Nat.ofDigits_digits]

theorem parseDigits_natDigitChars (n : Nat) :
    parseDigits (natDigitChars n) = some n := by
  obtain ⟨ds, hds, hval, _⟩ := toDigitList_natDigitChars n
  have hne := natDigitChars_ne_nil n
  unfold parseDigits
  match h : natDigitChars n, hne with
  | c :: cs, _ =>
    rw [h] at hds
    simp [hds, hval]

theorem parseDigits_eq_of_ne {s : Str} (h : s ≠ []) :
    parseDigits s = (toDigitList s).map valMSB := by
  cases s with
  | nil => exact absurd rfl h
  | cons c cs => rfl

theorem toDigitList_replicate_zero (k : Nat) :
    toDigitList (List.replicate k '0') = some (List.replicate k 0) := by
  induction k with
  | zero => rfl
  | succ k ih =>
    rw [List.replicate_succ, List.replicate_succ]
    unfold toDigitList
    rw [ih]
    rfl

theorem mem_natDigitChars_isSome {n : Nat} {c : Char} (h : c ∈ natDigitChars n) :
    (charToDigit c).isSome := by
  rw [natDigitChars_eq] at h
  split at h
  · simp only [List.mem_singleton] at h
    subst h
    rfl
  · rw [List.mem_reverse] at h
    obtain ⟨d, hd, rfl⟩ := List.mem_map.mp h
    exact digitChar_isSome (Nat.digits_lt_base (by norm_num) hd)

theorem toDigitList_of_forall_isSome {s : Str}
    (h : ∀ c ∈ s, (charToDigit c).isSome) :
    ∃ ds, toDigitList s = some ds ∧ ds.length = s.length := by
  induction s with
  | nil => exact ⟨[], rfl, rfl⟩
  | cons c cs ih =>
    obtain ⟨ds, hds, hlen⟩ := ih (fun x hx => h x (List.mem_cons_of_mem c hx))
    obtain ⟨d, hd⟩ := Option.isSome_iff_exists.mp (h c (List.mem_cons_self c cs))
    refine ⟨d :: ds, ?_, by simp [hlen]⟩
    unfold toDigitList
    rw [hd, hds]

theorem splitSign_neg (r : Str) : splitSign ('-' :: r) = (true, r) := by
  simp [splitSign]

theorem splitSign_of_digit {c : Char} (h : (charToDigit c).isSome) (r : Str) :
    splitSign (c :: r) = (false, c :: r) := by
  have h1 : ¬ c = '-' := by rintro rfl; simp [charToDigit] at h
  have h2 : ¬ c = '+' := by rintro rfl; simp [charToDigit] at h
  simp only [splitSign]
  rw [if_neg h1, if_neg h2]

theorem splitFirst_of_not_mem {sep : Char} {s : Str} (h : sep ∉ s) :
    splitFirst sep s = none := by
  induction s with
  | nil => rfl
  | cons c cs ih =>
    have hcne : ¬ c = sep := by rintro rfl; exact h (List.mem_cons_self _ _)
    have hnm : sep ∉ cs := fun hm => h (List.mem_cons_of_mem c hm)
    unfold splitFirst
    rw [if_neg hcne, ih hnm]
    rfl

theorem splitFirst_append_cons {sep : Char} {xs : Str} (ys : Str) (h : sep ∉ xs) :
    splitFirst sep (xs ++ sep :: ys) = some (xs, ys) := by
  induction xs with
  | nil => simp [splitFirst]
  | cons c cs ih =>
    have hcne : ¬ c = sep := by rintro rfl; exact h (List.mem_cons_self _ _)
    have hnm : sep ∉ cs := fun hm => h (List.mem_cons_of_mem c hm)
    rw [List.cons_append]
    unfold splitFirst
    rw [if_neg hcne, ih hnm]
    rfl

theorem dot_not_isSome : ¬ (charToDigit '.').isSome := by decide

theorem parsePFloat_body_digits {neg : Bool} {body : Str} {n : Nat}
    (hne : body ≠ []) (hdig : ∀ c ∈ body, (charToDigit c).isSome)
    (hval : parseDigits body = some n) :
    (parsePFloat (if neg then '-' :: body else body)) =
      some ⟨if neg then -(n : Int) else (n : Int), 0⟩ := by
  have hsign : splitSign (if neg then '-' :: body else body) = (neg, body) := by
    cases neg with
    | true => simpa using splitSign_neg body
    | false =>
      match body, hne with
      | c :: r, _ =>
        simpa using splitSign_of_digit (hdig c (List.mem_cons_self c r)) r
  have hdot : splitFirst '.' body = none :=
    splitFirst_of_not_mem (fun hm => dot_not_isSome (hdig '.' hm))
  unfold parsePFloat
  rw [hsign]
  simp only [hdot, hval]
  rfl

theorem parsePFloat_fmtInt (i : Int) : parsePFloat (fmtInt i) = some ⟨i, 0⟩ := by
  have hne := natDigitChars_ne_nil i.natAbs
  have hdig : ∀ c ∈ natDigitChars i.natAbs, (charToDigit c).isSome :=
    fun c hc => mem_natDigitChars_isSome hc
  have hval := parseDigits_natDigitChars i.natAbs
  unfold fmtInt
  by_cases hi : i < 0
  · rw [if_pos hi]
    have h2 := @parsePFloat_body_digits true _ _ hne hdig hval
    simp only [if_pos] at h2
    rw [h2]
    simp only [show -((i.natAbs : Nat) : Int) = i from by omega]
  · rw [if_neg hi]
    have h2 := @parsePFloat_body_digits false _ _ hne hdig hval
    simp only [Bool.false_eq_true, if_false] at h2
    rw [h2]
    simp only [show ((i.natAbs : Nat) : Int) = i from by omega]

theorem parsePFloat_decimal {neg : Bool} {ip fp : Str} {ni nf : Nat}
    (hip_ne : ip ≠ []) (hfp_ne : fp ≠ [])
    (hdig_ip : ∀ c ∈ ip, (charToDigit c).isSome)
    (hpi : parseDigits ip = some ni) (hpf : parseDigits fp = some nf) :
    parsePFloat ((if neg then ['-'] else []) ++ ip ++ '.' :: fp) =
      some ⟨if neg then -(((ni * 10 ^ fp.length + nf) : Nat) : Int)
            else (((ni * 10 ^ fp.length + nf) : Nat) : Int), fp.length⟩ := by
  have hdot_ip : '.' ∉ ip := fun hm' => dot_not_isSome (hdig_ip '.' hm')
  have hsplit : splitFirst '.' (ip ++ '.' :: fp) = some (ip, fp) :=
    splitFirst_append_cons fp hdot_ip
  have hipE : ip.isEmpty = false := by simp [List.isEmpty_iff, hip_ne]
  have hfpE : fp.isEmpty = false := by simp [List.isEmpty_iff, hfp_ne]
  have hsign : splitSign ((if neg then ['-'] else []) ++ ip ++ '.' :: fp) =
      (neg, ip ++ '.' :: fp) := by
    cases neg with
    | true => simpa using splitSign_neg (ip ++ '.' :: fp)
    | false =>
      obtain ⟨c, ip', rfl⟩ := List.exists_cons_of_ne_nil hip_ne
      simpa using splitSign_of_digit
        (hdig_ip c (List.mem_cons_self _ _)) (ip' ++ '.' :: fp)
  simp only [parsePFloat, hsign, hsplit, hipE, hfpE, Bool.false_eq_true, false_and,
    if_false, hpi, hpf]

theorem parsePFloat_fmtPFloat (x : PFloat) : parsePFloat (fmtPFloat x) = some x := by
  obtain ⟨m, e⟩ := x
  by_cases he : e = 0
  · subst he
    unfold fmtPFloat
    exact parsePFloat_fmtInt m
  · unfold fmtPFloat
    simp only [if_neg he]
    set ds := natDigitChars m.natAbs with hds
    set padded := List.replicate (e + 1 - ds.length) '0' ++ ds with hpad
    have hdig_ds : ∀ c ∈ ds, (charToDigit c).isSome :=
      fun c hc => mem_natDigitChars_isSome hc
    have hdig_pad : ∀ c ∈ padded, (charToDigit c).isSome := by
      intro c hc
      rcases List.mem_append.mp hc with h | h
      · have h0 : c = '0' := List.eq_of_mem_replicate h
        subst h0; rfl
      · exact hdig_ds c h
    have hds_pos : 0 < ds.length :=
      List.length_pos.mpr (natDigitChars_ne_nil _)
    have hlen_pad : e + 1 ≤ padded.length := by
      rw [hpad, List.length_append, List.length_replicate]
      omega
    set ip := padded.take (padded.length - e) with hip
    set fp := padded.drop (padded.length - e) with hfp
    have hip_fp : ip ++ fp = padded := List.take_append_drop _ _
    have hfp_len : fp.length = e := by
      rw [hfp, List.length_drop]
      omega
    have hip_len : 0 < ip.length := by
      rw [hip, List.length_take]
      omega
    have hdig_ip : ∀ c ∈ ip, (charToDigit c).isSome :=
      fun c hc => hdig_pad c (List.take_subset _ _ hc)
    have hdig_fp : ∀ c ∈ fp, (charToDigit c).isSome :=
      fun c hc => hdig_pad c (List.drop_subset _ _ hc)
    obtain ⟨dsl, hdsl, hdsl_val, _⟩ := toDigitList_natDigitChars m.natAbs
    have hpad_tdl : toDigitList padded =
        some (List.replicate (e + 1 - ds.length) 0 ++ dsl) :=
      toDigitList_append (toDigitList_replicate_zero _) hdsl
    obtain ⟨di, hdi, hdi_len⟩ := toDigitList_of_forall_isSome hdig_ip
    obtain ⟨df, hdf, hdf_len⟩ := toDigitList_of_forall_isSome hdig_fp
    have hcat : toDigitList padded = some (di ++ df) := by
      rw [← hip_fp]
      exact toDigitList_append hdi hdf
    have heqlists : di ++ df = List.replicate (e + 1 - ds.length) 0 ++ dsl :=
      Option.some.inj (hcat.symm.trans hpad_tdl)
    have hval_sum : valMSB di * 10 ^ e + valMSB df = m.natAbs := by
      have h1 : valMSB (di ++ df) = m.natAbs := by
        rw [heqlists, valMSB_replicate_zero, hdsl_val]
      rw [valMSB_append, hdf_len, hfp_len] at h1
      exact h1
    have hip_ne : ip ≠ [] := List.length_pos.mp hip_len
    have hfp_ne : fp ≠ [] := by
      intro hnil
      rw [hnil] at hfp_len
      exact he hfp_len.symm
    have hp_ip : parseDigits ip = some (valMSB di) := by
      rw [parseDigits_eq_of_ne hip_ne, hdi]; rfl
    have hp_fp : parseDigits fp = some (valMSB df) := by
      rw [parseDigits_eq_of_ne hfp_ne, hdf]; rfl
    have hkey := @parsePFloat_decimal (decide (m < 0)) _ _ _ _ hip_ne hfp_ne hdig_ip hp_ip hp_fp
    have harg : (if decide (m < 0) then ['-'] else ([] : Str)) =
        (if m < 0 then ['-'] else ([] : Str)) := by
      by_cases hm : m < 0 <;> simp [hm]
    rw [harg] at hkey
    rw [hkey, hfp_len]
    have hmm : (if decide (m < 0) = true
          then -(((valMSB di * 10 ^ e + valMSB df : Nat)) : Int)
          else (((valMSB di * 10 ^ e + valMSB df : Nat)) : Int)) = m := by
      by_cases hm : m < 0
      · rw [if_pos (by simpa using hm), hval_sum]
        omega
      · rw [if_neg (by simpa using hm), hval_sum]
        omega
    rw [hmm]

/-! ### Character sets of formatted numbers, split/join round trips -/

theorem mem_fmtInt_numChar {i : Int} {c : Char} (h : c ∈ fmtInt i) : isNumChar c := by
  unfold fmtInt at h
  split at h
  · rcases List.mem_cons.mp h with rfl | h
    · exact Or.inl rfl
    · exact Or.inr (Or.inr (mem_natDigitChars_isSome h))
  · exact Or.inr (Or.inr (mem_natDigitChars_isSome h))

theorem mem_fmtPFloat_numChar {x : PFloat} {c : Char} (h : c ∈ fmtPFloat x) :
    isNumChar c := by
  unfold fmtPFloat at h
  split at h
  · exact mem_fmtInt_numChar h
  · have hpad : ∀ d ∈ List.replicate (x.e + 1 - (natDigitChars x.m.natAbs).length) '0' ++
        natDigitChars x.m.natAbs, isNumChar d := by
      intro d hd
      rcases List.mem_append.mp hd with h' | h'
      · have h0 : d = '0' := List.eq_of_mem_replicate h'
        subst h0
        exact Or.inr (Or.inr rfl)
      · exact Or.inr (Or.inr (mem_natDigitChars_isSome h'))
    rcases List.mem_append.mp h with h1 | h2
    · rcases List.mem_append.mp h1 with hsgn | htk
      · revert hsgn
        split
        · intro hsgn
          exact Or.inl (List.mem_singleton.mp hsgn)
        · intro hsgn
          cases hsgn
      · exact hpad c (List.take_subset _ _ htk)
    · rcases List.mem_cons.mp h2 with rfl | hdr
      · exact Or.inr (Or.inl rfl)
      · exact hpad c (List.drop_subset _ _ hdr)

theorem not_mem_fmtPFloat {x : PFloat} {c : Char} (h : ¬ isNumChar c) :
    c ∉ fmtPFloat x :=
  fun hm => h (mem_fmtPFloat_numChar hm)

theorem not_mem_fmtInt {i : Int} {c : Char} (h : ¬ isNumChar c) : c ∉ fmtInt i :=
  fun hm => h (mem_fmtInt_numChar hm)

theorem splitSep_of_not_mem {sep : Char} {s : Str} (h : sep ∉ s) :
    splitSep sep s = [s] := by
  induction s with
  | nil => rfl
  | cons c cs ih =>
    have hcne : ¬ c = sep := by rintro rfl; exact h (List.mem_cons_self _ _)
    have hnm : sep ∉ cs := fun hm => h (List.mem_cons_of_mem c hm)
    unfold splitSep
    rw [if_neg hcne, ih hnm]

theorem splitSep_append_cons {sep : Char} {xs : Str} (rest : Str) (h : sep ∉ xs) :
    splitSep sep (xs ++ sep :: rest) = xs :: splitSep sep rest := by
  induction xs with
  | nil => simp [splitSep]
  | cons c cs ih =>
    have hcne : ¬ c = sep := by rintro rfl; exact h (List.mem_cons_self _ _)
    have hnm : sep ∉ cs := fun hm => h (List.mem_cons_of_mem c hm)
    rw [List.cons_append]
    conv_lhs => unfold splitSep
    rw [if_neg hcne, ih hnm]

theorem splitSep_joinSep {sep : Char} :
    ∀ {ps : List Str}, ps ≠ [] → (∀ p ∈ ps, sep ∉ p) →
      splitSep sep (joinSep sep ps) = ps
  | [], h, _ => absurd rfl h
  | [x], _, hall => by
    unfold joinSep
    exact splitSep_of_not_mem (hall x (List.mem_singleton.mpr rfl))
  | x :: y :: ys, _, hall => by
    show splitSep sep (x ++ sep :: joinSep sep (y :: ys)) = _
    rw [splitSep_append_cons _ (hall x (List.mem_cons_self _ _)),
      splitSep_joinSep (by simp) (fun p hp => hall p (List.mem_cons_of_mem x hp))]

theorem countChar_pos_iff_mem {c : Char} {s : Str} : 1 ≤ countChar c s ↔ c ∈ s := by
  induction s with
  | nil => simp [countChar]
  | cons a as ih =>
    unfold countChar at ih ⊢
    by_cases hac : a = c
    · subst hac
      rw [List.filter_cons_of_pos (by simp)]
      simp
    · rw [List.filter_cons_of_neg (by simpa using hac)]
      rw [ih, List.mem_cons]
      constructor
      · exact Or.inr
      · rintro (rfl | h)
        · exact absurd rfl hac
        · exact h

theorem splitFirst_some_of_mem {sep : Char} {s : Str} (h : sep ∈ s) :
    ∃ a b, splitFirst sep s = some (a, b) ∧ s = a ++ sep :: b ∧ sep ∉ a := by
  induction s with
  | nil => cases h
  | cons c cs ih =>
    by_cases hc : c = sep
    · subst hc
      exact ⟨[], cs, by simp [splitFirst], rfl, by simp⟩
    · have hm : sep ∈ cs := by
        rcases List.mem_cons.mp h with h' | h'
        · exact absurd h'.symm hc
        · exact h'
      obtain ⟨a, b, hsp, hdec, hna⟩ := ih hm
      refine ⟨c :: a, b, ?_, by simp [hdec], ?_⟩
      · unfold splitFirst
        rw [if_neg hc, hsp]
        rfl
      · intro hmem
        rcases List.mem_cons.mp hmem with h' | h'
        · exact hc h'.symm
        · exact hna h'

theorem splitSep_ne_nil {sep : Char} (s : Str) : splitSep sep s ≠ [] := by
  induction s with
  | nil => simp [splitSep]
  | cons c cs ih =>
    unfold splitSep
    split
    · simp
    · cases hs : splitSep sep cs with
      | nil => simp
      | cons t ts => simp

theorem splitSep_length {sep : Char} (s : Str) :
    (splitSep sep s).length = countChar sep s + 1 := by
  induction s with
  | nil => rfl
  | cons c cs ih =>
    unfold splitSep countChar
    by_cases hc : c = sep
    · subst hc
      rw [if_pos rfl, List.filter_cons_of_pos (by simp)]
      unfold countChar at ih
      simp [ih]
    · rw [if_neg hc, List.filter_cons_of_neg (by simpa using hc)]
      cases hs : splitSep sep cs with
      | nil => exact absurd hs (splitSep_ne_nil cs)
      | cons t ts =>
        unfold countChar at ih
        rw [hs] at ih
        simpa using ih

/-! ### Parameter lookup on constructed URLs -/

theorem mem_joinSep {sep : Char} {c : Char} :
    ∀ {ps : List Str}, c ∈ joinSep sep ps → c = sep ∨ ∃ p ∈ ps, c ∈ p
  | [], h => by cases h
  | [x], h => by
    rw [show joinSep sep [x] = x from rfl] at h
    exact Or.inr ⟨x, List.mem_singleton.mpr rfl, h⟩
  | x :: y :: ys, h => by
    rw [show joinSep sep (x :: y :: ys) = x ++ sep :: joinSep sep (y :: ys) from rfl]
      at h
    rcases List.mem_append.mp h with h' | h'
    · exact Or.inr ⟨x, List.mem_cons_self _ _, h'⟩
    · rcases List.mem_cons.mp h' with rfl | h'
      · exact Or.inl rfl
      · rcases mem_joinSep h' with h'' | ⟨p, hp, hcp⟩
        · exact Or.inl h''
        · exact Or.inr ⟨p, List.mem_cons_of_mem x hp, hcp⟩

theorem joinSep_cons_ne_nil {sep : Char} {p : Str} (ps : List Str) (h : p ≠ []) :
    joinSep sep (p :: ps) ≠ [] := by
  cases ps with
  | nil => exact h
  | cons q qs => simp [joinSep]

theorem lookupLast_cons {β : Type} (k' : Str) (v : β) (rest : List (Str × β)) (k : Str) :
    lookupLast ((k', v) :: rest) k =
      match lookupLast rest k with
      | some r => some r
      | none => if k' = k then some v else none := rfl

theorem lookupLast_append {β : Type} (xs ys : List (Str × β)) (k : Str) :
    lookupLast (xs ++ ys) k =
      match lookupLast ys k with
      | some r => some r
      | none => lookupLast xs k := by
  induction xs with
  | nil =>
    cases h : lookupLast ys k <;> simp [h, lookupLast]
  | cons p xs ih =>
    obtain ⟨k', v⟩ := p
    rw [List.cons_append, lookupLast_cons, ih, lookupLast_cons]
    cases h : lookupLast ys k <;> cases h' : lookupLast xs k <;> simp [h, h']

theorem lookupLast_of_keys_ne {β : Type} {k : Str} :
    ∀ {xs : List (Str × β)}, (∀ p ∈ xs, p.1 ≠ k) → lookupLast xs k = none
  | [], _ => rfl
  | (k', v) :: rest, h => by
    rw [lookupLast_cons,
      lookupLast_of_keys_ne (fun p hp => h p (List.mem_cons_of_mem _ hp))]
    exact if_neg (h (k', v) (List.mem_cons_self _ _))

theorem pyUrlparse_fragment {pre frag : Str} (h : '#' ∉ pre) :
    (pyUrlparse (pre ++ '#' :: frag)).fragment = frag := by
  unfold pyUrlparse
  rw [splitFirst_append_cons frag h]

theorem filterMap_splitFirst_eq :
    ∀ {kvs : List (Str × Str)}, (∀ kv ∈ kvs, '=' ∉ kv.1) →
      List.filterMap (splitFirst '=') (kvs.map (fun kv => kv.1 ++ '=' :: kv.2)) = kvs
  | [], _ => rfl
  | kv :: rest, h => by
    rw [List.map_cons, List.filterMap_cons,
      splitFirst_append_cons kv.2 (h kv (List.mem_cons_self _ _)),
      filterMap_splitFirst_eq (fun p hp => h p (List.mem_cons_of_mem _ hp))]

theorem fragmentPairs_join {kvs : List (Str × Str)}
    (hall : ∀ kv ∈ kvs, '&' ∉ kv.1 ∧ '&' ∉ kv.2 ∧ '=' ∉ kv.1) (hne : kvs ≠ []) :
    fragmentPairs (joinSep '&' (kvs.map (fun kv => kv.1 ++ '=' :: kv.2))) = kvs := by
  unfold fragmentPairs
  rw [splitSep_joinSep (by simpa using hne)
    (by
      intro p hp
      obtain ⟨kv, hkv, rfl⟩ := List.mem_map.mp hp
      intro hmem
      rcases List.mem_append.mp hmem with h' | h'
      · exact (hall kv hkv).1 h'
      · rcases List.mem_cons.mp h' with h'' | h''
        · cases h''
        · exact (hall kv hkv).2.1 h'')]
  exact filterMap_splitFirst_eq (fun kv hkv => (hall kv hkv).2.2)

/-- The flattened `&name=value` chunks the generator appends after the
profile suffix. -/
def optsFlat (opts : List (Str × Str)) : Str :=
  (opts.map (fun p => '&' :: (p.1 ++ '=' :: p.2))).flatten

theorem joinSep_cons_flat (sep : Char) (p : Str) (ps : List Str) :
    joinSep sep (p :: ps) = p ++ (ps.map (fun q => sep :: q)).flatten := by
  induction ps generalizing p with
  | nil => simp [joinSep]
  | cons q qs ih =>
    rw [show joinSep sep (p :: q :: qs) = p ++ sep :: joinSep sep (q :: qs) from rfl,
      ih q]
    simp

/-- The key=value pairs a generated URL's fragment decomposes into. -/
def builtKvs (L : Str) (opts : List (Str × Str)) : List (Str × Str) :=
  (strLit "map", strLit "11/42.4655/-73.6002/standard") ::
  (strLit "lonlats", L) :: (strLit "profile", strLit "car-fast") :: opts

theorem built_url_decomp (L : Str) (opts : List (Str × Str)) :
    brouterBase ++ L ++ brouterSuffix ++ optsFlat opts =
      strLit "https://brouter.de/brouter-web/" ++ '#' ::
        joinSep '&' ((builtKvs L opts).map (fun kv => kv.1 ++ '=' :: kv.2)) := by
  have h1 : brouterBase = strLit "https://brouter.de/brouter-web/" ++ '#' ::
      ((strLit "map" ++ '=' :: strLit "11/42.4655/-73.6002/standard") ++
        '&' :: (strLit "lonlats" ++ ['='])) := by decide
  have h2 : brouterSuffix = '&' :: (strLit "profile" ++ '=' :: strLit "car-fast") := by
    decide
  rw [show (builtKvs L opts).map (fun kv => kv.1 ++ '=' :: kv.2) =
      (strLit "map" ++ '=' :: strLit "11/42.4655/-73.6002/standard") ::
      (strLit "lonlats" ++ '=' :: L) ::
      (strLit "profile" ++ '=' :: strLit "car-fast") ::
      opts.map (fun kv => kv.1 ++ '=' :: kv.2) from rfl]
  rw [joinSep_cons_flat]
  simp only [List.map_cons, List.flatten_cons, List.map_map, Function.comp_def]
  rw [h1, h2]
  simp only [optsFlat]
  simp [List.append_assoc]

theorem getParamValue_built (L : Str) (opts : List (Str × Str))
    (hopts : ∀ p ∈ opts, p.1 ≠ strLit "lonlats" ∧ '&' ∉ p.1 ∧ '=' ∉ p.1 ∧ '&' ∉ p.2)
    (hL : '&' ∉ L) :
    getParamValue (brouterBase ++ L ++ brouterSuffix ++ optsFlat opts)
      (strLit "lonlats") = some L := by
  have hkv : ∀ kv ∈ builtKvs L opts, '&' ∉ kv.1 ∧ '&' ∉ kv.2 ∧ '=' ∉ kv.1 := by
    intro kv hkv
    unfold builtKvs at hkv
    rcases List.mem_cons.mp hkv with rfl | hkv
    · exact ⟨show '&' ∉ strLit "map" by decide,
        show '&' ∉ strLit "11/42.4655/-73.6002/standard" by decide,
        show '=' ∉ strLit "map" by decide⟩
    rcases List.mem_cons.mp hkv with rfl | hkv
    · exact ⟨show '&' ∉ strLit "lonlats" by decide, hL,
        show '=' ∉ strLit "lonlats" by decide⟩
    rcases List.mem_cons.mp hkv with rfl | hkv
    · exact ⟨show '&' ∉ strLit "profile" by decide,
        show '&' ∉ strLit "car-fast" by decide,
        show '=' ∉ strLit "profile" by decide⟩
    · exact ⟨(hopts kv hkv).2.1, (hopts kv hkv).2.2.2, (hopts kv hkv).2.2.1⟩
  rw [built_url_decomp L opts]
  simp only [getParamValue]
  rw [pyUrlparse_fragment (show '#' ∉ strLit "https://brouter.de/brouter-web/" by decide)]
  have hfne : joinSep '&' ((builtKvs L opts).map (fun kv => kv.1 ++ '=' :: kv.2)) ≠
      [] := by
    rw [show (builtKvs L opts).map (fun kv => kv.1 ++ '=' :: kv.2) =
        (strLit "map" ++ '=' :: strLit "11/42.4655/-73.6002/standard") ::
        ((strLit "lonlats", L) :: (strLit "profile", strLit "car-fast") ::
          opts).map (fun kv => kv.1 ++ '=' :: kv.2) from rfl]
    exact joinSep_cons_ne_nil _ (by decide)
  rw [if_pos hfne, fragmentPairs_join hkv (by simp [builtKvs])]
  unfold builtKvs
  rw [lookupLast_cons, lookupLast_cons,
    lookupLast_of_keys_ne (by
      intro p hp
      rcases List.mem_cons.mp hp with rfl | hp
      · exact show strLit "profile" ≠ strLit "lonlats" by decide
      · exact (hopts p hp).1)]
  rw [if_pos rfl]

theorem optsFlat_append (a b : List (Str × Str)) :
    optsFlat (a ++ b) = optsFlat a ++ optsFlat b := by
  simp [optsFlat]

theorem param_chunk (name pre V : Str) (h : pre = '&' :: (name ++ ['='])) :
    pre ++ V = optsFlat [(name, V)] := by
  subst h
  simp [optsFlat, List.append_assoc]

theorem comma_not_numChar : ¬ isNumChar ',' := by decide

theorem semi_not_numChar : ¬ isNumChar ';' := by decide

theorem amp_not_numChar : ¬ isNumChar '&' := by decide

theorem hash_not_numChar : ¬ isNumChar '#' := by decide

theorem amp_not_mem_triple {a b : PFloat} {tail : Str} (htail : '&' ∉ tail) :
    '&' ∉ fmtPFloat a ++ ',' :: fmtPFloat b ++ ',' :: tail := by
  intro hm
  rcases List.mem_append.mp hm with h | h
  · rcases List.mem_append.mp h with h | h
    · exact not_mem_fmtPFloat amp_not_numChar h
    · rcases List.mem_cons.mp h with h | h
      · cases h
      · exact not_mem_fmtPFloat amp_not_numChar h
  · rcases List.mem_cons.mp h with h | h
    · cases h
    · exact htail h

theorem amp_not_mem_joinSep {sep : Char} (hsep : sep ≠ '&') {ps : List Str}
    (h : ∀ p ∈ ps, '&' ∉ p) : '&' ∉ joinSep sep ps := by
  intro hm
  rcases mem_joinSep hm with h' | ⟨p, hp, hcp⟩
  · exact hsep h'.symm
  · exact h p hp hcp

theorem nogosParamStr_decomp (nogos : List (Str × List (PFloat × PFloat × Int)))
    (t : Trip) :
    ∃ o, nogosParamStr nogos t = optsFlat o ∧
      ∀ p ∈ o, p.1 = strLit "nogos" ∧ '&' ∉ p.2 := by
  unfold nogosParamStr
  cases hsl : shapeLookup nogos t.shape_id with
  | none => exact ⟨[], rfl, by simp⟩
  | some ns =>
    show ∃ o, (if ns = [] then ([] : Str) else strLit "&nogos=" ++
        joinSep ';' (ns.map (fun n => fmtPFloat n.1 ++ ',' :: fmtPFloat n.2.1 ++
          ',' :: fmtInt n.2.2))) = optsFlat o ∧
      ∀ p ∈ o, p.1 = strLit "nogos" ∧ '&' ∉ p.2
    by_cases hns : ns = []
    · rw [if_pos hns]
      exact ⟨[], rfl, by simp⟩
    · rw [if_neg hns]
      have hch : strLit "&nogos=" = '&' :: (strLit "nogos" ++ ['=']) := by decide
      refine ⟨[(strLit "nogos",
        joinSep ';' (ns.map (fun n => fmtPFloat n.1 ++ ',' :: fmtPFloat n.2.1 ++
          ',' :: fmtInt n.2.2)))], ?_, ?_⟩
      · exact param_chunk _ _ _ hch
      intro p hp
      rcases List.mem_singleton.mp hp with rfl
      refine ⟨rfl, amp_not_mem_joinSep (by decide) ?_⟩
      intro q hq
      obtain ⟨n, _, rfl⟩ := List.mem_map.mp hq
      exact amp_not_mem_triple (not_mem_fmtInt amp_not_numChar)

theorem poisParamStr_decomp (guidePois : List (PFloat × PFloat × Str))
    (hlab : ∀ q ∈ guidePois, q.2.2 = strLit "GUIDE") :
    ∃ o, poisParamStr guidePois = optsFlat o ∧
      ∀ p ∈ o, p.1 = strLit "pois" ∧ '&' ∉ p.2 := by
  unfold poisParamStr
  by_cases hg : guidePois = []
  · rw [if_pos hg]
    exact ⟨[], rfl, by simp⟩
  · rw [if_neg hg]
    have hch : strLit "&pois=" = '&' :: (strLit "pois" ++ ['=']) := by decide
    refine ⟨[(strLit "pois",
      joinSep ';' (guidePois.map (fun p => fmtPFloat p.1 ++ ',' :: fmtPFloat p.2.1 ++
        ',' :: p.2.2)))], ?_, ?_⟩
    · exact param_chunk _ _ _ hch
    intro p hp
    rcases List.mem_singleton.mp hp with rfl
    refine ⟨rfl, amp_not_mem_joinSep (by decide) ?_⟩
    intro q hq
    obtain ⟨g, hg', rfl⟩ := List.mem_map.mp hq
    refine amp_not_mem_triple ?_
    rw [hlab g hg']
    decide

theorem straightParamStr_decomp (straights : List (Str × List Int)) (t : Trip) :
    ∃ o, straightParamStr straights t = optsFlat o ∧
      ∀ p ∈ o, p.1 = strLit "straight" ∧ '&' ∉ p.2 := by
  unfold straightParamStr
  cases hsl : shapeLookup straights t.shape_id with
  | none => exact ⟨[], rfl, by simp⟩
  | some idxs =>
    show ∃ o, (if idxs = [] then ([] : Str) else strLit "&straight=" ++
        joinSep ',' (idxs.map fmtInt)) = optsFlat o ∧
      ∀ p ∈ o, p.1 = strLit "straight" ∧ '&' ∉ p.2
    by_cases hi : idxs = []
    · rw [if_pos hi]
      exact ⟨[], rfl, by simp⟩
    · rw [if_neg hi]
      have hch : strLit "&straight=" = '&' :: (strLit "straight" ++ ['=']) := by decide
      refine ⟨[(strLit "straight", joinSep ',' (idxs.map fmtInt))], ?_, ?_⟩
      · exact param_chunk _ _ _ hch
      intro p hp
      rcases List.mem_singleton.mp hp with rfl
      refine ⟨rfl, amp_not_mem_joinSep (by decide) ?_⟩
      intro q hq
      obtain ⟨n, _, rfl⟩ := List.mem_map.mp hq
      exact not_mem_fmtInt amp_not_numChar

theorem buildTripUrl_decomp (nogos : List (Str × List (PFloat × PFloat × Int)))
    (straights : List (Str × List Int)) (t : Trip)
    (coords : List (PFloat × PFloat)) (guidePois : List (PFloat × PFloat × Str))
    (hlab : ∀ q ∈ guidePois, q.2.2 = strLit "GUIDE") :
    ∃ opts, buildTripUrl nogos straights t coords guidePois =
      brouterBase ++ joinSep ';' (coords.map pairStr) ++ brouterSuffix ++
        optsFlat opts ∧
      ∀ p ∈ opts, p.1 ≠ strLit "lonlats" ∧ '&' ∉ p.1 ∧ '=' ∉ p.1 ∧ '&' ∉ p.2 := by
  obtain ⟨o1, h1, hp1⟩ := nogosParamStr_decomp nogos t
  obtain ⟨o2, h2, hp2⟩ := poisParamStr_decomp guidePois hlab
  obtain ⟨o3, h3, hp3⟩ := straightParamStr_decomp straights t
  refine ⟨o1 ++ o2 ++ o3, ?_, ?_⟩
  · unfold buildTripUrl
    rw [h1, h2, h3, optsFlat_append, optsFlat_append]
    simp [List.append_assoc]
  · intro p hp
    rcases List.mem_append.mp hp with hp' | hp'
    · rcases List.mem_append.mp hp' with hp'' | hp''
      · obtain ⟨hk, hv⟩ := hp1 p hp''
        exact ⟨by rw [hk]; decide, by rw [hk]; decide, by rw [hk]; decide, hv⟩
      · obtain ⟨hk, hv⟩ := hp2 p hp''
        exact ⟨by rw [hk]; decide, by rw [hk]; decide, by rw [hk]; decide, hv⟩
    · obtain ⟨hk, hv⟩ := hp3 p hp'
      exact ⟨by rw [hk]; decide, by rw [hk]; decide, by rw [hk]; decide, hv⟩

theorem insertAtPos_length {α : Type} (x : α) :
    ∀ (i : Nat) (l : List α), (insertAtPos i x l).length = l.length + 1
  | _, [] => by simp [insertAtPos]
  | 0, _ :: _ => by simp [insertAtPos]
  | i + 1, y :: ys => by
    show (y :: insertAtPos i x ys).length = _
    simp [insertAtPos_length x i ys]

theorem guideInsertLoop_len :
    ∀ {gs : List GuideTup} {cs : List (PFloat × PFloat)}
      {ps : List (PFloat × PFloat × Str)} {cs' ps'},
      guideInsertLoop gs cs ps = .ok (cs', ps') → cs.length ≤ cs'.length := by
  intro gs
  induction gs with
  | nil =>
    intro cs ps cs' ps' h
    injection h with h
    injection h with h1 h2
    rw [← h1]
  | cons g gs ih =>
    intro cs ps cs' ps' h
    unfold guideInsertLoop at h
    cases hg : g.unpack3 with
    | none => rw [hg] at h; cases h
    | some v =>
      rw [hg] at h
      obtain ⟨lon, lat, position⟩ := v
      replace h : (if 0 ≤ position ∧ position ≤ (cs.length : Int) then
          guideInsertLoop gs (insertAtPos position.toNat (lon, lat) cs)
            (ps ++ [(lon, lat, strLit "GUIDE")])
        else guideInsertLoop gs cs ps) = Except.ok (cs', ps') := h
      by_cases hpos : 0 ≤ position ∧ position ≤ (cs.length : Int)
      · rw [if_pos hpos] at h
        have := ih h
        rw [insertAtPos_length] at this
        omega
      · rw [if_neg hpos] at h
        exact ih h

theorem guideInsertLoop_labels :
    ∀ {gs : List GuideTup} {cs : List (PFloat × PFloat)}
      {ps : List (PFloat × PFloat × Str)} {cs' ps'},
      guideInsertLoop gs cs ps = .ok (cs', ps') →
      (∀ q ∈ ps, q.2.2 = strLit "GUIDE") → ∀ q ∈ ps', q.2.2 = strLit "GUIDE" := by
  intro gs
  induction gs with
  | nil =>
    intro cs ps cs' ps' h hps
    injection h with h
    injection h with h1 h2
    rw [← h2]
    exact hps
  | cons g gs ih =>
    intro cs ps cs' ps' h hps
    unfold guideInsertLoop at h
    cases hg : g.unpack3 with
    | none => rw [hg] at h; cases h
    | some v =>
      rw [hg] at h
      obtain ⟨lon, lat, position⟩ := v
      replace h : (if 0 ≤ position ∧ position ≤ (cs.length : Int) then
          guideInsertLoop gs (insertAtPos position.toNat (lon, lat) cs)
            (ps ++ [(lon, lat, strLit "GUIDE")])
        else guideInsertLoop gs cs ps) = Except.ok (cs', ps') := h
      by_cases hpos : 0 ≤ position ∧ position ≤ (cs.length : Int)
      · rw [if_pos hpos] at h
        refine ih h ?_
        intro q hq
        rcases List.mem_append.mp hq with hq' | hq'
        · exact hps q hq'
        · rcases List.mem_singleton.mp hq' with rfl
          rfl
      · rw [if_neg hpos] at h
        exact ih h hps

theorem tripCoordsAndPois_ok {stops : List StopEntry}
    {guides : List (Str × List GuideTup)} {t : Trip}
    {coords : List (PFloat × PFloat)} {guidePois : List (PFloat × PFloat × Str)}
    (h : tripCoordsAndPois stops guides t = .ok (some (coords, guidePois))) :
    coords ≠ [] ∧ ∀ q ∈ guidePois, q.2.2 = strLit "GUIDE" := by
  unfold tripCoordsAndPois at h
  by_cases hst : t.stop_times = []
  · rw [if_pos hst] at h
    cases h
  rw [if_neg hst] at h
  by_cases hc0e : (sortedStopTimes t.stop_times).filterMap
      (fun v => stopLookup stops v.2) = []
  · rw [if_pos hc0e] at h
    cases h
  rw [if_neg hc0e] at h
  cases hsl : shapeLookup guides t.shape_id with
  | none =>
    rw [hsl] at h
    replace h : (Except.ok (some ((sortedStopTimes t.stop_times).filterMap
        (fun v => stopLookup stops v.2), ([] : List (PFloat × PFloat × Str)))) :
        Except Unit _) = Except.ok (some (coords, guidePois)) := h
    injection h with h
    injection h with h
    injection h with h1 h2
    subst h1
    constructor
    · exact hc0e
    · rw [← h2]
      intro q hq
      cases hq
  | some gs =>
    rw [hsl] at h
    replace h : (match guideInsertLoop
          (stableSort (fun a b => a.posKey ≤ b.posKey) gs).reverse
          ((sortedStopTimes t.stop_times).filterMap (fun v => stopLookup stops v.2))
          [] with
        | Except.error e => (Except.error e : Except Unit _)
        | Except.ok r => Except.ok (some r)) =
        Except.ok (some (coords, guidePois)) := h
    cases hloop : guideInsertLoop
        (stableSort (fun a b => a.posKey ≤ b.posKey) gs).reverse
        ((sortedStopTimes t.stop_times).filterMap (fun v => stopLookup stops v.2))
        [] with
    | error e =>
      rw [hloop] at h
      exact absurd h (by simp)
    | ok r =>
      rw [hloop] at h
      replace h : (Except.ok (some r) : Except Unit _) =
          Except.ok (some (coords, guidePois)) := h
      injection h with h
      injection h with h
      rw [h] at hloop
      clear h
      constructor
      · intro hnil
        have hlen := guideInsertLoop_len hloop
        rw [hnil] at hlen
        exact hc0e (List.length_eq_zero.mp (Nat.le_zero.mp hlen))
      · exact guideInsertLoop_labels hloop (by intro q hq; cases hq)

theorem coordsLoop_map_pairStr :
    ∀ (coords : List (PFloat × PFloat)), coordsLoop (coords.map pairStr) = coords
  | [] => rfl
  | c :: cs => by
    rw [List.map_cons]
    unfold coordsLoop
    have hcm : ',' ∈ pairStr c :=
      List.mem_append.mpr (Or.inr (List.mem_cons_self _ _))
    rw [if_pos (countChar_pos_iff_mem.mpr hcm),
      show pairStr c = fmtPFloat c.1 ++ ',' :: fmtPFloat c.2 from rfl,
      splitFirst_append_cons _ (not_mem_fmtPFloat comma_not_numChar)]
    show (match parsePFloat (fmtPFloat c.1), parsePFloat (fmtPFloat c.2) with
      | some lon, some lat => (lon, lat) :: coordsLoop (cs.map pairStr)
      | _, _ => coordsLoop (cs.map pairStr)) = c :: cs
    rw [parsePFloat_fmtPFloat, parsePFloat_fmtPFloat]
    show (c.1, c.2) :: coordsLoop (cs.map pairStr) = c :: cs
    rw [coordsLoop_map_pairStr cs]

theorem pairStr_ne_nil (c : PFloat × PFloat) : pairStr c ≠ [] := by
  unfold pairStr
  simp

theorem lonlats_ne_nil {coords : List (PFloat × PFloat)} (h : coords ≠ []) :
    joinSep ';' (coords.map pairStr) ≠ [] := by
  cases coords with
  | nil => exact absurd rfl h
  | cons c cs =>
    rw [List.map_cons]
    exact joinSep_cons_ne_nil _ (pairStr_ne_nil c)

theorem semi_not_mem_pairStr (c : PFloat × PFloat) : ';' ∉ pairStr c := by
  intro hm
  rcases List.mem_append.mp hm with h | h
  · exact not_mem_fmtPFloat semi_not_numChar h
  · rcases List.mem_cons.mp h with h | h
    · cases h
    · exact not_mem_fmtPFloat semi_not_numChar h

theorem amp_not_mem_lonlats (coords : List (PFloat × PFloat)) :
    '&' ∉ joinSep ';' (coords.map pairStr) := by
  apply amp_not_mem_joinSep (by decide)
  intro p hp
  obtain ⟨c, _, rfl⟩ := List.mem_map.mp hp
  intro hm
  rcases List.mem_append.mp hm with h | h
  · exact not_mem_fmtPFloat amp_not_numChar h
  · rcases List.mem_cons.mp h with h | h
    · cases h
    · exact not_mem_fmtPFloat amp_not_numChar h

/-- Claim C1: for every trip with at least one resolvable stop (i.e. the
per-trip pipeline yields a coordinate list), decoding the `lonlats`
parameter of the URL the route URL generator builds for that trip
returns exactly the coordinate sequence that was encoded: the round trip
through the URL codec is lossless for coordinates. -/
theorem c1_url_codec_roundtrip
    (stops : List StopEntry) (nogos : List (Str × List (PFloat × PFloat × Int)))
    (guides : List (Str × List GuideTup)) (straights : List (Str × List Int))
    (t : Trip) (coords : List (PFloat × PFloat))
    (guidePois : List (PFloat × PFloat × Str))
    (h : tripCoordsAndPois stops guides t = .ok (some (coords, guidePois))) :
    extract_coords_from_brouter_url (buildTripUrl nogos straights t coords guidePois)
      = coords := by
  obtain ⟨hcne, hlab⟩ := tripCoordsAndPois_ok h
  obtain ⟨opts, hurl, hprops⟩ := buildTripUrl_decomp nogos straights t coords
    guidePois hlab
  unfold extract_coords_from_brouter_url
  rw [hurl, getParamValue_built _ opts
    (fun p hp => ⟨(hprops p hp).1, (hprops p hp).2.1, (hprops p hp).2.2.1,
      (hprops p hp).2.2.2⟩)
    (amp_not_mem_lonlats coords)]
  show (if joinSep ';' (coords.map pairStr) = [] then []
    else coordsLoop (splitSep ';' (joinSep ';' (coords.map pairStr)))) = coords
  rw [if_neg (lonlats_ne_nil hcne)]
  rw [splitSep_joinSep (by simpa using hcne)
    (by
      intro p hp
      obtain ⟨c, _, rfl⟩ := List.mem_map.mp hp
      exact semi_not_mem_pairStr c)]
  exact coordsLoop_map_pairStr coords

/-- Concrete instance for `c1_url_codec_roundtrip`: one trip with one
resolvable stop. -/
theorem c1_url_codec_roundtrip_witness :
    tripCoordsAndPois [⟨strLit "A", ⟨1, 0⟩, ⟨2, 0⟩⟩] []
        ⟨strLit "T1", some (strLit "S"), [(strLit "08:00", strLit "A")]⟩ =
      .ok (some ([(⟨1, 0⟩, ⟨2, 0⟩)], [])) ∧
    extract_coords_from_brouter_url
        (buildTripUrl [] [] ⟨strLit "T1", some (strLit "S"),
          [(strLit "08:00", strLit "A")]⟩ [(⟨1, 0⟩, ⟨2, 0⟩)] []) =
      [(⟨1, 0⟩, ⟨2, 0⟩)] :=
  ⟨rfl,
    c1_url_codec_roundtrip [⟨strLit "A", ⟨1, 0⟩, ⟨2, 0⟩⟩] [] [] []
      ⟨strLit "T1", some (strLit "S"), [(strLit "08:00", strLit "A")]⟩
      [(⟨1, 0⟩, ⟨2, 0⟩)] [] rfl⟩

/-! ### C9: the extract loops skip malformed items and keep order -/

theorem coordsLoop_cons_eq (p : Str) (rest : List Str) :
    coordsLoop (p :: rest) =
      match specCoordItem p with
      | some c => c :: coordsLoop rest
      | none => coordsLoop rest := by
  have hL : coordsLoop (p :: rest) =
      if countChar ',' p ≥ 1 then
        match splitFirst ',' p with
        | some (a, b) =>
          match parsePFloat a, parsePFloat b with
          | some lon, some lat => (lon, lat) :: coordsLoop rest
          | _, _ => coordsLoop rest
        | none => coordsLoop rest
      else coordsLoop rest := rfl
  have hR : specCoordItem p =
      match splitFirst ',' p with
      | none => none
      | some (a, b) =>
        match parsePFloat a, parsePFloat b with
        | some lon, some lat => some (lon, lat)
        | _, _ => none := rfl
  rw [hL, hR]
  by_cases hm : ',' ∈ p
  · rw [if_pos (countChar_pos_iff_mem.mpr hm)]
    obtain ⟨a, b, hsp, _, _⟩ := splitFirst_some_of_mem hm
    rw [hsp]
    show (match parsePFloat a, parsePFloat b with
          | some lon, some lat => (lon, lat) :: coordsLoop rest
          | _, _ => coordsLoop rest) =
        (match (match parsePFloat a, parsePFloat b with
                | some lon, some lat => some (lon, lat)
                | _, _ => none) with
          | some c => c :: coordsLoop rest
          | none => coordsLoop rest)
    cases parsePFloat a <;> cases parsePFloat b <;> rfl
  · rw [if_neg (fun hc => hm (countChar_pos_iff_mem.mp hc)),
      splitFirst_of_not_mem hm]

theorem coordsLoop_eq_filterMap (l : List Str) :
    coordsLoop l = l.filterMap specCoordItem := by
  induction l with
  | nil => rfl
  | cons p rest ih =>
    rw [coordsLoop_cons_eq, List.filterMap_cons]
    cases specCoordItem p <;> simp [ih]

theorem nogosLoop_cons_eq (t : Str) (rest : List Str) :
    nogosLoop (t :: rest) =
      match specNogoItem t with
      | some n => n :: nogosLoop rest
      | none => nogosLoop rest := by
  have hL : nogosLoop (t :: rest) =
      if countChar ',' t = 2 then
        match splitSep ',' t with
        | [lonS, latS, radS] =>
          match parsePFloat lonS, parsePFloat latS, parsePFloat radS with
          | some lon, some lat, some rad => (lon, lat, rad.truncInt) :: nogosLoop rest
          | _, _, _ => nogosLoop rest
        | _ => nogosLoop rest
      else nogosLoop rest := rfl
  have hR : specNogoItem t =
      match splitSep ',' t with
      | [lonS, latS, radS] =>
        match parsePFloat lonS, parsePFloat latS, parsePFloat radS with
        | some lon, some lat, some rad => some (lon, lat, rad.truncInt)
        | _, _, _ => none
      | _ => none := rfl
  rw [hL, hR]
  by_cases hc : countChar ',' t = 2
  · rw [if_pos hc]
    have hlen : (splitSep ',' t).length = 3 := by rw [splitSep_length, hc]
    rcases hsp : splitSep ',' t with _ | ⟨a, _ | ⟨b, _ | ⟨c, _ | ⟨d, l⟩⟩⟩⟩
    · exfalso
      rw [hsp] at hlen
      simp only [List.length_nil] at hlen
      omega
    · exfalso
      rw [hsp] at hlen
      simp only [List.length_cons, List.length_nil] at hlen
      omega
    · exfalso
      rw [hsp] at hlen
      simp only [List.length_cons, List.length_nil] at hlen
      omega
    · show (match parsePFloat a, parsePFloat b, parsePFloat c with
            | some lon, some lat, some rad =>
              (lon, lat, rad.truncInt) :: nogosLoop rest
            | _, _, _ => nogosLoop rest) =
          (match (match parsePFloat a, parsePFloat b, parsePFloat c with
                  | some lon, some lat, some rad => some (lon, lat, rad.truncInt)
                  | _, _, _ => none) with
            | some n => n :: nogosLoop rest
            | none => nogosLoop rest)
      cases parsePFloat a <;> cases parsePFloat b <;> cases parsePFloat c <;> rfl
    · exfalso
      rw [hsp] at hlen
      simp only [List.length_cons, List.length_nil] at hlen
      omega
  · rw [if_neg hc]
    have hlen : (splitSep ',' t).length ≠ 3 := by
      rw [splitSep_length]
      omega
    rcases hsp : splitSep ',' t with _ | ⟨a, _ | ⟨b, _ | ⟨c, _ | ⟨d, l⟩⟩⟩⟩
    · rfl
    · rfl
    · rfl
    · exfalso
      rw [hsp] at hlen
      simp only [List.length_cons, List.length_nil] at hlen
      omega
    · rfl

theorem nogosLoop_eq_filterMap (l : List Str) :
    nogosLoop l = l.filterMap specNogoItem := by
  induction l with
  | nil => rfl
  | cons p rest ih =>
    rw [nogosLoop_cons_eq, List.filterMap_cons]
    cases specNogoItem p <;> simp [ih]

theorem poisLoop_cons_eq (t : Str) (rest : List Str) :
    poisLoop (t :: rest) =
      match specPoiItem t with
      | some q => q :: poisLoop rest
      | none => poisLoop rest := by
  have hL : poisLoop (t :: rest) =
      if countChar ',' t ≥ 2 then
        match splitSep ',' t with
        | lonS :: latS :: labelParts =>
          match parsePFloat lonS, parsePFloat latS with
          | some lon, some lat => (lon, lat, joinSep ',' labelParts) :: poisLoop rest
          | _, _ => poisLoop rest
        | _ => poisLoop rest
      else poisLoop rest := rfl
  have hR : specPoiItem t =
      match splitSep ',' t with
      | lonS :: latS :: labelParts =>
        if labelParts = [] then none
        else
          match parsePFloat lonS, parsePFloat latS with
          | some lon, some lat => some (lon, lat, joinSep ',' labelParts)
          | _, _ => none
      | _ => none := rfl
  rw [hL, hR]
  by_cases hc : countChar ',' t ≥ 2
  · rw [if_pos hc]
    have hlen : (splitSep ',' t).length ≥ 3 := by
      rw [splitSep_length]
      omega
    rcases hsp : splitSep ',' t with _ | ⟨a, _ | ⟨b, l⟩⟩
    · exfalso
      rw [hsp] at hlen
      simp only [List.length_nil] at hlen
      omega
    · exfalso
      rw [hsp] at hlen
      simp only [List.length_cons, List.length_nil] at hlen
      omega
    · have hbl : ¬ l = [] := by
        intro hnil
        rw [hsp, hnil] at hlen
        simp only [List.length_cons, List.length_nil] at hlen
        omega
      show (match parsePFloat a, parsePFloat b with
            | some lon, some lat => (lon, lat, joinSep ',' l) :: poisLoop rest
            | _, _ => poisLoop rest) =
          (match (if l = [] then none
                  else match parsePFloat a, parsePFloat b with
                    | some lon, some lat => some (lon, lat, joinSep ',' l)
                    | _, _ => none) with
            | some q => q :: poisLoop rest
            | none => poisLoop rest)
      rw [if_neg hbl]
      cases parsePFloat a <;> cases parsePFloat b <;> rfl
  · rw [if_neg hc]
    have hlen : (splitSep ',' t).length ≤ 2 := by
      rw [splitSep_length]
      omega
    rcases hsp : splitSep ',' t with _ | ⟨a, _ | ⟨b, _ | ⟨c, l⟩⟩⟩
    · rfl
    · rfl
    · rfl
    · exfalso
      rw [hsp] at hlen
      simp only [List.length_cons, List.length_nil] at hlen
      omega

theorem poisLoop_eq_filterMap (l : List Str) :
    poisLoop l = l.filterMap specPoiItem := by
  induction l with
  | nil => rfl
  | cons p rest ih =>
    rw [poisLoop_cons_eq, List.filterMap_cons]
    cases specPoiItem p <;> simp [ih]

theorem straightLoop_eq_filterMap (l : List Str) :
    straightLoop l = l.filterMap specStraightItem := by
  induction l with
  | nil => rfl
  | cons s rest ih =>
    have hL : straightLoop (s :: rest) =
        match parseInt (stripSpaces s) with
        | some i => i :: straightLoop rest
        | none => straightLoop rest := rfl
    have hR : specStraightItem s = parseInt (stripSpaces s) := rfl
    rw [hL, List.filterMap_cons, hR]
    cases parseInt (stripSpaces s) <;> simp [ih]

/-- Claim C9: for every URL string, each extract operation returns the
list of successfully parsed items in their order of appearance (a
filterMap of the item decoder over the split items), silently skipping
malformed items, and never fails: the functions are total and malformed
entries are dropped, not fatal. -/
theorem c9_extract_skips_malformed (url : Str) :
    extract_coords_from_brouter_url url =
      (paramItems url (strLit "lonlats")).filterMap specCoordItem ∧
    extract_nogos_from_brouter_url url =
      (paramItems url (strLit "nogos")).filterMap specNogoItem ∧
    extract_pois_from_brouter_url url =
      (paramItems url (strLit "pois")).filterMap specPoiItem ∧
    extract_straight_from_brouter_url url =
      (straightParamItems url).filterMap specStraightItem := by
  refine ⟨?_, ?_, ?_, ?_⟩
  · unfold extract_coords_from_brouter_url paramItems
    cases getParamValue url (strLit "lonlats") with
    | none => rfl
    | some v =>
      show (if v = [] then [] else coordsLoop (splitSep ';' v)) =
        (if v = [] then [] else splitSep ';' v).filterMap specCoordItem
      by_cases hv : v = []
      · rw [if_pos hv, if_pos hv]
        rfl
      · rw [if_neg hv, if_neg hv]
        exact coordsLoop_eq_filterMap _
  · unfold extract_nogos_from_brouter_url paramItems
    cases getParamValue url (strLit "nogos") with
    | none => rfl
    | some v =>
      show (if v = [] then [] else nogosLoop (splitSep ';' v)) =
        (if v = [] then [] else splitSep ';' v).filterMap specNogoItem
      by_cases hv : v = []
      · rw [if_pos hv, if_pos hv]
        rfl
      · rw [if_neg hv, if_neg hv]
        exact nogosLoop_eq_filterMap _
  · unfold extract_pois_from_brouter_url paramItems
    cases getParamValue url (strLit "pois") with
    | none => rfl
    | some v =>
      show (if v = [] then [] else poisLoop (splitSep ';' v)) =
        (if v = [] then [] else splitSep ';' v).filterMap specPoiItem
      by_cases hv : v = []
      · rw [if_pos hv, if_pos hv]
        rfl
      · rw [if_neg hv, if_neg hv]
        exact poisLoop_eq_filterMap _
  · unfold extract_straight_from_brouter_url straightParamItems
    cases getParamValue url (strLit "straight") with
    | none => rfl
    | some v =>
      show (if v = [] then [] else straightLoop (splitSep ',' v)) =
        (if v = [] then [] else splitSep ',' v).filterMap specStraightItem
      by_cases hv : v = []
      · rw [if_pos hv, if_pos hv]
        rfl
      · rw [if_neg hv, if_neg hv]
        exact straightLoop_eq_filterMap _

/-! ### C5 / C10: the generator's seen-set equals first-occurrence dedup -/

theorem dedupFrom_cons {κ β : Type} [DecidableEq κ] (seen : List κ) (k : κ) (l : β)
    (rest : List (κ × β)) :
    dedupFrom seen ((k, l) :: rest) =
      if k ∈ seen then dedupFrom seen rest
      else (k, l) :: dedupFrom (k :: seen) rest := by
  rw [dedupFrom]

theorem tripLine_key {stops : List StopEntry}
    {nogos : List (Str × List (PFloat × PFloat × Int))}
    {guides : List (Str × List GuideTup)} {straights : List (Str × List Int)}
    {t : Trip} {key : Option Str × Str} {line : Str × Str}
    (h : tripLine stops nogos guides straights t = .ok (some (key, line))) :
    key.1 = t.shape_id ∧ line.2 = key.2 ∧
      (t.shape_id = none → line.1 = t.trip_id) := by
  unfold tripLine at h
  cases htc : tripCoordsAndPois stops guides t with
  | error e => rw [htc] at h; cases h
  | ok r =>
    rw [htc] at h
    cases r with
    | none => exact absurd h (by simp)
    | some cp =>
      obtain ⟨coords, guidePois⟩ := cp
      replace h : (Except.ok (some ((t.shape_id,
          buildTripUrl nogos straights t coords guidePois),
          ((if shapeTruthy t.shape_id then t.shape_id.getD [] else t.trip_id),
            buildTripUrl nogos straights t coords guidePois))) :
          Except Unit _) = .ok (some (key, line)) := h
      injection h with h
      injection h with h
      injection h with hk hl
      subst hk
      subst hl
      refine ⟨rfl, rfl, ?_⟩
      intro hsn
      rw [hsn]
      rfl

theorem collectKeyed_cons (stops : List StopEntry)
    (nogos : List (Str × List (PFloat × PFloat × Int)))
    (guides : List (Str × List GuideTup)) (straights : List (Str × List Int))
    (t : Trip) (ts : List Trip) :
    collectKeyed stops nogos guides straights (t :: ts) =
      match tripLine stops nogos guides straights t with
      | .error e => .error e
      | .ok none => collectKeyed stops nogos guides straights ts
      | .ok (some kl) =>
        match collectKeyed stops nogos guides straights ts with
        | .error e => .error e
        | .ok rest => .ok (kl :: rest) := rfl

theorem collectKeyed_append (stops : List StopEntry)
    (nogos : List (Str × List (PFloat × PFloat × Int)))
    (guides : List (Str × List GuideTup)) (straights : List (Str × List Int)) :
    ∀ (as bs : List Trip),
      collectKeyed stops nogos guides straights (as ++ bs) =
        match collectKeyed stops nogos guides straights as with
        | .error e => .error e
        | .ok x => (collectKeyed stops nogos guides straights bs).map (x ++ ·)
  | [], bs => by
    show collectKeyed stops nogos guides straights bs =
      (collectKeyed stops nogos guides straights bs).map (([] : List _) ++ ·)
    cases h : collectKeyed stops nogos guides straights bs <;> simp [Except.map]
  | t :: as, bs => by
    rw [List.cons_append, collectKeyed_cons, collectKeyed_cons,
      collectKeyed_append stops nogos guides straights as bs]
    cases tripLine stops nogos guides straights t with
    | error e => rfl
    | ok kl =>
      cases kl with
      | none => rfl
      | some kl =>
        cases collectKeyed stops nogos guides straights as with
        | error e => rfl
        | ok x =>
          cases collectKeyed stops nogos guides straights bs with
          | error e => rfl
          | ok y => rfl

theorem generateLoop_eq (stops : List StopEntry)
    (nogos : List (Str × List (PFloat × PFloat × Int)))
    (guides : List (Str × List GuideTup)) (straights : List (Str × List Int)) :
    ∀ (ts : List Trip) (seen : List (Option Str × Str)),
      generateLoop stops nogos guides straights ts seen =
        (collectKeyed stops nogos guides straights ts).map
          (fun kls => (dedupFrom seen kls).map (·.2))
  | [], seen => rfl
  | t :: ts, seen => by
    rw [show generateLoop stops nogos guides straights (t :: ts) seen =
        (match tripLine stops nogos guides straights t with
        | .error e => .error e
        | .ok none => generateLoop stops nogos guides straights ts seen
        | .ok (some (key, line)) =>
          if key ∈ seen then generateLoop stops nogos guides straights ts seen
          else
            match generateLoop stops nogos guides straights ts (key :: seen) with
            | .error e => .error e
            | .ok rest => .ok (line :: rest)) from rfl,
      collectKeyed_cons]
    cases tripLine stops nogos guides straights t with
    | error e => rfl
    | ok kl =>
      cases kl with
      | none => exact generateLoop_eq stops nogos guides straights ts seen
      | some kl =>
        obtain ⟨key, line⟩ := kl
        show (if key ∈ seen then generateLoop stops nogos guides straights ts seen
            else match generateLoop stops nogos guides straights ts (key :: seen) with
              | Except.error e => Except.error e
              | Except.ok rest => Except.ok (line :: rest)) =
          Except.map (fun kls => (dedupFrom seen kls).map (·.2))
            (match collectKeyed stops nogos guides straights ts with
              | Except.error e => Except.error e
              | Except.ok rest => Except.ok ((key, line) :: rest))
        by_cases hks : key ∈ seen
        · rw [if_pos hks, generateLoop_eq stops nogos guides straights ts seen]
          cases collectKeyed stops nogos guides straights ts with
          | error e => rfl
          | ok rest =>
            show Except.ok ((dedupFrom seen rest).map (·.2)) =
              Except.ok ((dedupFrom seen ((key, line) :: rest)).map (·.2))
            have hd : dedupFrom seen ((key, line) :: rest) = dedupFrom seen rest := by
              rw [dedupFrom_cons, if_pos hks]
            rw [hd]
        · rw [if_neg hks, generateLoop_eq stops nogos guides straights ts (key :: seen)]
          cases collectKeyed stops nogos guides straights ts with
          | error e => rfl
          | ok rest =>
            show Except.ok (line :: (dedupFrom (key :: seen) rest).map (·.2)) =
              Except.ok ((dedupFrom seen ((key, line) :: rest)).map (·.2))
            have hd : dedupFrom seen ((key, line) :: rest) =
                (key, line) :: dedupFrom (key :: seen) rest := by
              rw [dedupFrom_cons, if_neg hks]
            rw [hd]
            rfl

theorem dedupByKey_cons {κ β : Type} [DecidableEq κ] (k : κ) (l : β)
    (rest : List (κ × β)) :
    dedupByKey ((k, l) :: rest) =
      (k, l) :: dedupByKey (rest.filter (fun p => p.1 ≠ k)) := by
  rw [dedupByKey]

theorem dedupByKey_nil {κ β : Type} [DecidableEq κ] :
    dedupByKey ([] : List (κ × β)) = [] := by
  rw [dedupByKey]

theorem dedupFrom_eq_dedupByKey {κ β : Type} [DecidableEq κ] :
    ∀ (l : List (κ × β)) (seen : List κ),
      dedupFrom seen l = dedupByKey (l.filter (fun p => p.1 ∉ seen))
  | [], seen => by
    rw [List.filter_nil, dedupByKey_nil]
    rfl
  | (k, v) :: rest, seen => by
    rw [dedupFrom_cons, List.filter_cons]
    by_cases hk : k ∈ seen
    · rw [if_pos hk, if_neg (by simpa using hk)]
      exact dedupFrom_eq_dedupByKey rest seen
    · rw [if_neg hk, if_pos (by simpa using hk), dedupByKey_cons,
        dedupFrom_eq_dedupByKey rest (k :: seen), List.filter_filter]
      have hfeq : List.filter (fun (p : κ × β) => decide (p.1 ∉ k :: seen)) rest =
          List.filter (fun (a : κ × β) => decide (a.1 ≠ k) && decide (a.1 ∉ seen))
            rest := by
        apply List.filter_congr
        intro a _
        by_cases h1 : a.1 = k <;> by_cases h2 : a.1 ∈ seen <;>
          simp [h1, h2, List.mem_cons]
      rw [hfeq]

theorem dedupByKey_subset {κ β : Type} [DecidableEq κ] :
    ∀ {l : List (κ × β)} {p : κ × β}, p ∈ dedupByKey l → p ∈ l
  | [], _, h => by
    rw [dedupByKey_nil] at h
    cases h
  | (k, v) :: rest, p, h => by
    rw [dedupByKey_cons] at h
    rcases List.mem_cons.mp h with rfl | h
    · exact List.mem_cons_self _ _
    · exact List.mem_cons_of_mem _
        (List.mem_of_mem_filter (dedupByKey_subset h))
  termination_by l => l.length
  decreasing_by
    exact Nat.lt_succ_of_le (List.length_filter_le _ rest)

theorem dedupByKey_keys_distinct {κ β : Type} [DecidableEq κ] :
    ∀ (l : List (κ × β)), (dedupByKey l).Pairwise (fun a b => a.1 ≠ b.1)
  | [] => by
    rw [dedupByKey_nil]
    exact List.Pairwise.nil
  | (k, v) :: rest => by
    rw [dedupByKey_cons]
    refine List.Pairwise.cons ?_ (dedupByKey_keys_distinct _)
    intro p hp
    have hmem := dedupByKey_subset hp
    have := List.of_mem_filter hmem
    simp only [ne_eq, decide_eq_true_eq] at this
    exact fun hc => this hc.symm
  termination_by l => l.length
  decreasing_by
    exact Nat.lt_succ_of_le (List.length_filter_le _ rest)

theorem filter_not_mem_nil {κ β : Type} [DecidableEq κ] (l : List (κ × β)) :
    l.filter (fun p => p.1 ∉ ([] : List κ)) = l := by
  induction l with
  | nil => rfl
  | cons p rest ih => rw [List.filter_cons, if_pos (by simp), ih]

/-- Claim C5: the generator emits exactly one line per distinct
(shape_id, url) pair.  Whenever the generator succeeds, its output is
the first-occurrence deduplication, keyed by `(trip.get("shape_id"),
url)`, of the per-trip keyed lines — so two trips with the same shape
and identical URL text collapse into one emitted line regardless of
order, while identical URL text under two different shape ids is kept
once per shape id — and the deduplicated lines have pairwise distinct
keys. -/
theorem c5_one_line_per_shape_url_pair
    (stops : List StopEntry) (nogos : List (Str × List (PFloat × PFloat × Int)))
    (guides : List (Str × List GuideTup)) (straights : List (Str × List Int))
    (trips : List Trip) (l : List (Str × Str))
    (kls : List ((Option Str × Str) × (Str × Str)))
    (hg : generate_brouter_urls trips stops nogos guides straights = .ok l)
    (hc : collectKeyed stops nogos guides straights trips = .ok kls) :
    l = (dedupByKey kls).map (·.2) ∧
      (dedupByKey kls).Pairwise (fun a b => a.1 ≠ b.1) := by
  have h := generateLoop_eq stops nogos guides straights trips []
  rw [show generate_brouter_urls trips stops nogos guides straights =
      generateLoop stops nogos guides straights trips [] from rfl] at hg
  rw [hc] at h
  refine ⟨?_, dedupByKey_keys_distinct kls⟩
  have h2 := hg.symm.trans h
  replace h2 : Except.ok l =
      Except.ok ((dedupFrom [] kls).map (·.2)) := h2
  injection h2 with h2
  rw [h2, dedupFrom_eq_dedupByKey, filter_not_mem_nil]

/-- Concrete instance for `c5_one_line_per_shape_url_pair`: two trips
with the same shape id and identical stop sequences emit one line. -/
theorem c5_one_line_per_shape_url_pair_witness :
    generate_brouter_urls
        [⟨strLit "T1", some (strLit "S"), [(strLit "08:00", strLit "A")]⟩,
         ⟨strLit "T2", some (strLit "S"), [(strLit "08:00", strLit "A")]⟩]
        [⟨strLit "A", ⟨1, 0⟩, ⟨2, 0⟩⟩] [] [] [] =
      .ok [(strLit "S",
        buildTripUrl [] [] ⟨strLit "T1", some (strLit "S"),
          [(strLit "08:00", strLit "A")]⟩ [(⟨1, 0⟩, ⟨2, 0⟩)] [])] ∧
    collectKeyed [⟨strLit "A", ⟨1, 0⟩, ⟨2, 0⟩⟩] [] [] []
        [⟨strLit "T1", some (strLit "S"), [(strLit "08:00", strLit "A")]⟩,
         ⟨strLit "T2", some (strLit "S"), [(strLit "08:00", strLit "A")]⟩] =
      .ok [((some (strLit "S"),
          buildTripUrl [] [] ⟨strLit "T1", some (strLit "S"),
            [(strLit "08:00", strLit "A")]⟩ [(⟨1, 0⟩, ⟨2, 0⟩)] []),
         (strLit "S",
          buildTripUrl [] [] ⟨strLit "T1", some (strLit "S"),
            [(strLit "08:00", strLit "A")]⟩ [(⟨1, 0⟩, ⟨2, 0⟩)] [])),
        ((some (strLit "S"),
          buildTripUrl [] [] ⟨strLit "T2", some (strLit "S"),
            [(strLit "08:00", strLit "A")]⟩ [(⟨1, 0⟩, ⟨2, 0⟩)] []),
         (strLit "S",
          buildTripUrl [] [] ⟨strLit "T2", some (strLit "S"),
            [(strLit "08:00", strLit "A")]⟩ [(⟨1, 0⟩, ⟨2, 0⟩)] []))] ∧
    ([(strLit "S",
        buildTripUrl [] [] ⟨strLit "T1", some (strLit "S"),
          [(strLit "08:00", strLit "A")]⟩ [(⟨1, 0⟩, ⟨2, 0⟩)] [])] =
      (dedupByKey [((some (strLit "S"),
          buildTripUrl [] [] ⟨strLit "T1", some (strLit "S"),
            [(strLit "08:00", strLit "A")]⟩ [(⟨1, 0⟩, ⟨2, 0⟩)] []),
         (strLit "S",
          buildTripUrl [] [] ⟨strLit "T1", some (strLit "S"),
            [(strLit "08:00", strLit "A")]⟩ [(⟨1, 0⟩, ⟨2, 0⟩)] [])),
        ((some (strLit "S"),
          buildTripUrl [] [] ⟨strLit "T2", some (strLit "S"),
            [(strLit "08:00", strLit "A")]⟩ [(⟨1, 0⟩, ⟨2, 0⟩)] []),
         (strLit "S",
          buildTripUrl [] [] ⟨strLit "T2", some (strLit "S"),
            [(strLit "08:00", strLit "A")]⟩ [(⟨1, 0⟩, ⟨2, 0⟩)] []))]).map (·.2) ∧
      (dedupByKey [((some (strLit "S"),
          buildTripUrl [] [] ⟨strLit "T1", some (strLit "S"),
            [(strLit "08:00", strLit "A")]⟩ [(⟨1, 0⟩, ⟨2, 0⟩)] []),
         (strLit "S",
          buildTripUrl [] [] ⟨strLit "T1", some (strLit "S"),
            [(strLit "08:00", strLit "A")]⟩ [(⟨1, 0⟩, ⟨2, 0⟩)] [])),
        ((some (strLit "S"),
          buildTripUrl [] [] ⟨strLit "T2", some (strLit "S"),
            [(strLit "08:00", strLit "A")]⟩ [(⟨1, 0⟩, ⟨2, 0⟩)] []),
         (strLit "S",
          buildTripUrl [] [] ⟨strLit "T2", some (strLit "S"),
            [(strLit "08:00", strLit "A")]⟩ [(⟨1, 0⟩, ⟨2, 0⟩)] []))]).Pairwise
        (fun a b => a.1 ≠ b.1)) :=
  ⟨rfl, rfl,
    c5_one_line_per_shape_url_pair
      [⟨strLit "A", ⟨1, 0⟩, ⟨2, 0⟩⟩] [] [] []
      [⟨strLit "T1", some (strLit "S"), [(strLit "08:00", strLit "A")]⟩,
       ⟨strLit "T2", some (strLit "S"), [(strLit "08:00", strLit "A")]⟩]
      _ _ rfl rfl⟩

theorem dedupFrom_drop {κ β : Type} [DecidableEq κ] {k : κ} (l : β) :
    ∀ (xs : List (κ × β)) (seen : List κ) (ys : List (κ × β)),
      (k ∈ seen ∨ k ∈ xs.map (·.1)) →
      dedupFrom seen (xs ++ (k, l) :: ys) = dedupFrom seen (xs ++ ys)
  | [], seen, ys, h => by
    have hk : k ∈ seen := by
      rcases h with h | h
      · exact h
      · cases h
    rw [List.nil_append, List.nil_append, dedupFrom_cons, if_pos hk]
  | (k', v') :: xs, seen, ys, h => by
    rw [List.cons_append, List.cons_append, dedupFrom_cons, dedupFrom_cons]
    by_cases hk' : k' ∈ seen
    · rw [if_pos hk', if_pos hk']
      refine dedupFrom_drop l xs seen ys ?_
      rcases h with h | h
      · exact Or.inl h
      · rw [List.map_cons] at h
        rcases List.mem_cons.mp h with h | h
        · exact Or.inl (by rw [h]; exact hk')
        · exact Or.inr h
    · rw [if_neg hk', if_neg hk']
      refine congrArg _ (dedupFrom_drop l xs (k' :: seen) ys ?_)
      rcases h with h | h
      · exact Or.inl (List.mem_cons_of_mem _ h)
      · rw [List.map_cons] at h
        rcases List.mem_cons.mp h with h | h
        · exact Or.inl (by rw [h]; exact List.mem_cons_self _ _)
        · exact Or.inr h

theorem dedupFrom_mem {κ β : Type} [DecidableEq κ] {k : κ} (l : β) :
    ∀ (xs : List (κ × β)) (seen : List κ) (ys : List (κ × β)),
      k ∉ seen → k ∉ xs.map (·.1) →
      (k, l) ∈ dedupFrom seen (xs ++ (k, l) :: ys)
  | [], seen, ys, hs, _ => by
    rw [List.nil_append, dedupFrom_cons, if_neg hs]
    exact List.mem_cons_self _ _
  | (k', v') :: xs, seen, ys, hs, hx => by
    rw [List.cons_append, dedupFrom_cons]
    have hkk' : k ≠ k' := fun hc => hx (by simp [hc])
    have hx' : k ∉ xs.map (·.1) := fun hc => hx (by simp [hc])
    by_cases hk' : k' ∈ seen
    · rw [if_pos hk']
      exact dedupFrom_mem l xs seen ys hs hx'
    · rw [if_neg hk']
      exact List.mem_cons_of_mem _
        (dedupFrom_mem l xs (k' :: seen) ys
          (by simp [List.mem_cons, hkk', hs]) hx')

/-- Claim C10: for trips without a shape_id the dedup key is
`(None, url)`: a later shapeless trip that computes the same URL text as
an earlier shapeless trip adds nothing to the output (removing it leaves
the generated list unchanged), and the emitted line carries the trip_id
of the first such trip. -/
theorem c10_no_shape_dedup_key
    (stops : List StopEntry) (nogos : List (Str × List (PFloat × PFloat × Int)))
    (guides : List (Str × List GuideTup)) (straights : List (Str × List Int))
    (pre mid post : List Trip) (t1 t2 : Trip)
    (k1 k2 : Option Str × Str) (i1 i2 : Str) (u : Str)
    (kpre : List ((Option Str × Str) × (Str × Str)))
    (h1s : t1.shape_id = none) (h2s : t2.shape_id = none)
    (h1 : tripLine stops nogos guides straights t1 = .ok (some (k1, (i1, u))))
    (h2 : tripLine stops nogos guides straights t2 = .ok (some (k2, (i2, u))))
    (hpre : collectKeyed stops nogos guides straights pre = .ok kpre)
    (hfirst : (none, u) ∉ kpre.map (·.1)) :
    k1 = (none, u) ∧ i1 = t1.trip_id ∧
    generate_brouter_urls (pre ++ t1 :: (mid ++ t2 :: post))
        stops nogos guides straights =
      generate_brouter_urls (pre ++ t1 :: (mid ++ post))
        stops nogos guides straights ∧
    (∀ l, generate_brouter_urls (pre ++ t1 :: (mid ++ t2 :: post))
        stops nogos guides straights = .ok l → (t1.trip_id, u) ∈ l) := by
  obtain ⟨hk1a, hk1b, hk1c⟩ := tripLine_key h1
  obtain ⟨hk2a, hk2b, _⟩ := tripLine_key h2
  have hk1 : k1 = (none, u) := by
    obtain ⟨ka, kb⟩ := k1
    simp only at hk1a hk1b
    rw [h1s] at hk1a
    rw [hk1a, ← hk1b]
  have hk2 : k2 = (none, u) := by
    obtain ⟨ka, kb⟩ := k2
    simp only at hk2a hk2b
    rw [h2s] at hk2a
    rw [hk2a, ← hk2b]
  have hi1 : i1 = t1.trip_id := hk1c h1s
  have hGL : ∀ (T : List Trip),
      generate_brouter_urls T stops nogos guides straights =
        (collectKeyed stops nogos guides straights T).map
          (fun kls => (dedupFrom [] kls).map (·.2)) :=
    fun T => generateLoop_eq stops nogos guides straights T []
  have hstepOk : ∀ (X : List Trip) (kx : List _),
      collectKeyed stops nogos guides straights X = .ok kx →
      collectKeyed stops nogos guides straights (pre ++ t1 :: X) =
        .ok (kpre ++ (k1, (i1, u)) :: kx) := by
    intro X kx hX
    rw [collectKeyed_append, hpre, collectKeyed_cons, h1, hX]
    rfl
  have hstepErr : ∀ (X : List Trip) (e : Unit),
      collectKeyed stops nogos guides straights X = .error e →
      collectKeyed stops nogos guides straights (pre ++ t1 :: X) = .error e := by
    intro X e hX
    rw [collectKeyed_append, hpre, collectKeyed_cons, h1, hX]
    rfl
  refine ⟨hk1, hi1, ?_⟩
  cases hm : collectKeyed stops nogos guides straights mid with
  | error e =>
    have hL : collectKeyed stops nogos guides straights (mid ++ t2 :: post) =
        .error e := by
      rw [collectKeyed_append, hm]
    have hR : collectKeyed stops nogos guides straights (mid ++ post) = .error e := by
      rw [collectKeyed_append, hm]
    constructor
    · rw [hGL, hGL, hstepErr _ _ hL, hstepErr _ _ hR]
    · intro l hl
      rw [hGL, hstepErr _ _ hL] at hl
      exact absurd hl (by simp [Except.map])
  | ok kmid =>
    cases hp : collectKeyed stops nogos guides straights post with
    | error e =>
      have ht2 : collectKeyed stops nogos guides straights (t2 :: post) =
          .error e := by
        rw [collectKeyed_cons, h2, hp]
      have hL : collectKeyed stops nogos guides straights (mid ++ t2 :: post) =
          .error e := by
        rw [collectKeyed_append, hm, ht2]
        rfl
      have hR : collectKeyed stops nogos guides straights (mid ++ post) =
          .error e := by
        rw [collectKeyed_append, hm, hp]
        rfl
      constructor
      · rw [hGL, hGL, hstepErr _ _ hL, hstepErr _ _ hR]
      · intro l hl
        rw [hGL, hstepErr _ _ hL] at hl
        exact absurd hl (by simp [Except.map])
    | ok kpost =>
      have ht2 : collectKeyed stops nogos guides straights (t2 :: post) =
          .ok ((k2, (i2, u)) :: kpost) := by
        rw [collectKeyed_cons, h2, hp]
      have hL : collectKeyed stops nogos guides straights (mid ++ t2 :: post) =
          .ok (kmid ++ (k2, (i2, u)) :: kpost) := by
        rw [collectKeyed_append, hm, ht2]
        rfl
      have hR : collectKeyed stops nogos guides straights (mid ++ post) =
          .ok (kmid ++ kpost) := by
        rw [collectKeyed_append, hm, hp]
        rfl
      have hfullL := hstepOk _ _ hL
      have hfullR := hstepOk _ _ hR
      have hassoc : kpre ++ (k1, (i1, u)) :: (kmid ++ (k2, (i2, u)) :: kpost) =
          (kpre ++ (k1, (i1, u)) :: kmid) ++ (k2, (i2, u)) :: kpost := by
        simp
      have hassoc2 : kpre ++ (k1, (i1, u)) :: (kmid ++ kpost) =
          (kpre ++ (k1, (i1, u)) :: kmid) ++ kpost := by
        simp
      have hdropped : dedupFrom []
          (kpre ++ (k1, (i1, u)) :: (kmid ++ (k2, (i2, u)) :: kpost)) =
          dedupFrom [] (kpre ++ (k1, (i1, u)) :: (kmid ++ kpost)) := by
        rw [hassoc, hassoc2, hk2]
        refine dedupFrom_drop _ _ _ _ (Or.inr ?_)
        rw [← hk1]
        refine List.mem_map.mpr ⟨(k1, (i1, u)), ?_, rfl⟩
        exact List.mem_append.mpr (Or.inr (List.mem_cons_self _ _))
      constructor
      · rw [hGL, hGL, hfullL, hfullR]
        show Except.ok ((dedupFrom [] _).map _) = Except.ok ((dedupFrom [] _).map _)
        rw [hdropped]
      · intro l hl
        rw [hGL, hfullL] at hl
        replace hl : Except.ok ((dedupFrom []
            (kpre ++ (k1, (i1, u)) :: (kmid ++ (k2, (i2, u)) :: kpost))).map (·.2)) =
            Except.ok l := hl
        injection hl with hl
        rw [← hl, ← hi1]
        refine List.mem_map.mpr ⟨(k1, (i1, u)), ?_, rfl⟩
        refine dedupFrom_mem _ _ _ _ (by rw [hk1]; simp) ?_
        rw [hk1]
        exact hfirst

theorem c10_no_shape_dedup_key_witness :
    tripLine [⟨strLit "A", ⟨1, 0⟩, ⟨2, 0⟩⟩] [] [] []
        ⟨strLit "T1", none, [(strLit "08:00", strLit "A")]⟩ =
      .ok (some (((none : Option Str),
          buildTripUrl [] [] ⟨strLit "T1", none, [(strLit "08:00", strLit "A")]⟩
            [(⟨1, 0⟩, ⟨2, 0⟩)] []),
        (strLit "T1",
          buildTripUrl [] [] ⟨strLit "T1", none, [(strLit "08:00", strLit "A")]⟩
            [(⟨1, 0⟩, ⟨2, 0⟩)] []))) ∧
    generate_brouter_urls
        [⟨strLit "T1", none, [(strLit "08:00", strLit "A")]⟩,
         ⟨strLit "T2", none, [(strLit "08:00", strLit "A")]⟩]
        [⟨strLit "A", ⟨1, 0⟩, ⟨2, 0⟩⟩] [] [] [] =
      generate_brouter_urls
        [⟨strLit "T1", none, [(strLit "08:00", strLit "A")]⟩]
        [⟨strLit "A", ⟨1, 0⟩, ⟨2, 0⟩⟩] [] [] [] :=
  ⟨rfl,
    (c10_no_shape_dedup_key
      [⟨strLit "A", ⟨1, 0⟩, ⟨2, 0⟩⟩] [] [] [] [] [] []
      ⟨strLit "T1", none, [(strLit "08:00", strLit "A")]⟩
      ⟨strLit "T2", none, [(strLit "08:00", strLit "A")]⟩
      (none, buildTripUrl [] [] ⟨strLit "T1", none, [(strLit "08:00", strLit "A")]⟩
        [(⟨1, 0⟩, ⟨2, 0⟩)] [])
      (none, buildTripUrl [] [] ⟨strLit "T1", none, [(strLit "08:00", strLit "A")]⟩
        [(⟨1, 0⟩, ⟨2, 0⟩)] [])
      (strLit "T1") (strLit "T2")
      (buildTripUrl [] [] ⟨strLit "T1", none, [(strLit "08:00", strLit "A")]⟩
        [(⟨1, 0⟩, ⟨2, 0⟩)] [])
      [] rfl rfl rfl rfl rfl (by simp)).2.2.1⟩

/-- Claim C2: when the stop-only coordinate list (decoded coordinates
minus the claimed guide indices) does not have exactly one coordinate
per time-sorted stop visit, the reconciler returns the mismatch error
carrying the decoded count, the stop-only count, the visit count and the
detected-guide count, and the file system is untouched. -/
theorem c2_count_mismatch_hard_error
    (dist : DistFn) (a : RecArgs) (fs : FileSys) (sf : StopsFile) (trip : Trip)
    (hval : validateBrouterUrl a.url = none)
    (hcs : extract_coords_from_brouter_url a.url ≠ [])
    (htrip : findTrip a.trips a.trip_id = some trip)
    (hsf : fs.stops = some sf)
    (hmiss : requiredColumns.filter (fun c => c ∉ sf.cols) = [])
    (hlen : (stopOnlyCoords (extract_coords_from_brouter_url a.url)
        (guideMatch dist (extract_coords_from_brouter_url a.url)
          (((extract_pois_from_brouter_url a.url).filter
            (fun p => p.2.2 = strLit "GUIDE")).map (fun p => (p.1, p.2.1)))
          [] []).1).length ≠
      (sortedStopTimes trip.stop_times).length) :
    update_stop_positions_from_url dist a fs =
      (.errMismatch (extract_coords_from_brouter_url a.url).length
        (stopOnlyCoords (extract_coords_from_brouter_url a.url)
          (guideMatch dist (extract_coords_from_brouter_url a.url)
            (((extract_pois_from_brouter_url a.url).filter
              (fun p => p.2.2 = strLit "GUIDE")).map (fun p => (p.1, p.2.1)))
            [] []).1).length
        (sortedStopTimes trip.stop_times).length
        (guideMatch dist (extract_coords_from_brouter_url a.url)
          (((extract_pois_from_brouter_url a.url).filter
            (fun p => p.2.2 = strLit "GUIDE")).map (fun p => (p.1, p.2.1)))
          [] []).2.length,
       fs) := by
  unfold update_stop_positions_from_url
  rw [hval, htrip, hsf]
  simp only [if_neg hcs, hmiss]
  rw [if_neg (by simp : ¬(([] : List Str) ≠ []))]
  rw [if_pos hlen]

theorem c2_count_mismatch_hard_error_witness :
    update_stop_positions_from_url (fun _ _ => 0)
        ⟨strLit "http://brouter.de/#lonlats=1,2", strLit "T",
          [⟨strLit "T", none,
            [(strLit "08:00", strLit "A"), (strLit "09:00", strLit "B")]⟩],
          false, false, true, true, true⟩
        ⟨some ⟨requiredColumns, []⟩, none, none⟩ =
      (.errMismatch 1 1 2 0, ⟨some ⟨requiredColumns, []⟩, none, none⟩) :=
  c2_count_mismatch_hard_error (fun _ _ => 0)
    ⟨strLit "http://brouter.de/#lonlats=1,2", strLit "T",
      [⟨strLit "T", none,
        [(strLit "08:00", strLit "A"), (strLit "09:00", strLit "B")]⟩],
      false, false, true, true, true⟩
    ⟨some ⟨requiredColumns, []⟩, none, none⟩
    ⟨requiredColumns, []⟩
    ⟨strLit "T", none,
      [(strLit "08:00", strLit "A"), (strLit "09:00", strLit "B")]⟩
    rfl (by decide) rfl rfl rfl (by decide)

theorem lastMovedCoords_foldl (ups : List UpdateRec) (sid : Str) :
    lastMovedCoords ups sid = ups.foldl (lmStep sid) none := rfl

theorem lmFold_init (sid : Str) :
    ∀ (ups : List UpdateRec) (acc : Option (PFloat × PFloat)),
      ups.foldl (lmStep sid) acc =
        match ups.foldl (lmStep sid) none with
        | some x => some x
        | none => acc
  | [], acc => by simp
  | u :: ups, acc => by
    rw [List.foldl_cons, List.foldl_cons, lmFold_init sid ups (lmStep sid acc u),
      lmFold_init sid ups (lmStep sid none u)]
    cases hres : ups.foldl (lmStep sid) none with
    | some x => rfl
    | none =>
      cases u with
      | notFound s => rfl
      | upd sid2 nm a b c e d m =>
        simp only [lmStep]
        by_cases hm : sid2 = sid ∧ m = true
        · rw [if_pos hm, if_pos hm]
        · rw [if_neg hm, if_neg hm]

theorem specFinalRows_nil (rows : List StopRow) : specFinalRows rows [] = rows := by
  simp [specFinalRows, lastMovedCoords]

theorem specFinalRows_cons (rows : List StopRow) (u : UpdateRec)
    (ups : List UpdateRec) :
    specFinalRows rows (u :: ups) = specFinalRows (applyOne rows u) ups := by
  cases u with
  | notFound s =>
    show specFinalRows rows (.notFound s :: ups) = specFinalRows rows ups
    unfold specFinalRows
    refine List.map_congr_left (fun r _ => ?_)
    rw [lastMovedCoords_foldl, lastMovedCoords_foldl, List.foldl_cons]
    rfl
  | upd sid2 nm olon olat nlon nlat d m =>
    cases m with
    | false =>
      show specFinalRows rows (.upd sid2 nm olon olat nlon nlat d false :: ups) =
        specFinalRows rows ups
      unfold specFinalRows
      refine List.map_congr_left (fun r _ => ?_)
      rw [lastMovedCoords_foldl, lastMovedCoords_foldl, List.foldl_cons]
      have hstep : lmStep r.stop_id none (.upd sid2 nm olon olat nlon nlat d false) =
          none := by
        simp [lmStep]
      rw [hstep]
    | true =>
      show specFinalRows rows (.upd sid2 nm olon olat nlon nlat d true :: ups) =
        specFinalRows (setStopCoords rows sid2 nlat nlon) ups
      unfold specFinalRows setStopCoords
      rw [List.map_map]
      refine List.map_congr_left (fun r _ => ?_)
      show (match lastMovedCoords (.upd sid2 nm olon olat nlon nlat d true :: ups)
          r.stop_id with
        | some nc => { r with stop_lat := nc.2, stop_lon := nc.1 }
        | none => r) = _
      rw [lastMovedCoords_foldl, List.foldl_cons, lmFold_init, ← lastMovedCoords_foldl]
      by_cases hs : sid2 = r.stop_id
      · have hstep : lmStep r.stop_id none
            (.upd sid2 nm olon olat nlon nlat d true) = some (nlon, nlat) := by
          simp [lmStep, hs]
        rw [hstep]
        cases hlmc : lastMovedCoords ups r.stop_id with
        | some nc =>
          show ({ r with stop_lat := nc.2, stop_lon := nc.1 } : StopRow) = _
          show _ = (match lastMovedCoords ups
              (if r.stop_id = sid2 then
                ({ r with stop_lat := nlat, stop_lon := nlon } : StopRow)
              else r).stop_id with
            | some nc => { (if r.stop_id = sid2 then
                ({ r with stop_lat := nlat, stop_lon := nlon } : StopRow)
              else r) with stop_lat := nc.2, stop_lon := nc.1 }
            | none => (if r.stop_id = sid2 then
                ({ r with stop_lat := nlat, stop_lon := nlon } : StopRow)
              else r))
          rw [if_pos hs.symm]
          show _ = (match lastMovedCoords ups r.stop_id with
            | some nc => ({ r with stop_lat := nc.2, stop_lon := nc.1 } : StopRow)
            | none => { r with stop_lat := nlat, stop_lon := nlon })
          rw [hlmc]
        | none =>
          show ({ r with stop_lat := nlat, stop_lon := nlon } : StopRow) = _
          show _ = (match lastMovedCoords ups
              (if r.stop_id = sid2 then
                ({ r with stop_lat := nlat, stop_lon := nlon } : StopRow)
              else r).stop_id with
            | some nc => { (if r.stop_id = sid2 then
                ({ r with stop_lat := nlat, stop_lon := nlon } : StopRow)
              else r) with stop_lat := nc.2, stop_lon := nc.1 }
            | none => (if r.stop_id = sid2 then
                ({ r with stop_lat := nlat, stop_lon := nlon } : StopRow)
              else r))
          rw [if_pos hs.symm]
          show _ = (match lastMovedCoords ups r.stop_id with
            | some nc => ({ r with stop_lat := nc.2, stop_lon := nc.1 } : StopRow)
            | none => { r with stop_lat := nlat, stop_lon := nlon })
          rw [hlmc]
      · have hstep : lmStep r.stop_id none
            (.upd sid2 nm olon olat nlon nlat d true) = none := by
          simp [lmStep, hs]
        rw [hstep]
        show _ = (match lastMovedCoords ups
            (if r.stop_id = sid2 then
              ({ r with stop_lat := nlat, stop_lon := nlon } : StopRow)
            else r).stop_id with
          | some nc => { (if r.stop_id = sid2 then
              ({ r with stop_lat := nlat, stop_lon := nlon } : StopRow)
            else r) with stop_lat := nc.2, stop_lon := nc.1 }
          | none => (if r.stop_id = sid2 then
              ({ r with stop_lat := nlat, stop_lon := nlon } : StopRow)
            else r))
        rw [if_neg (fun hh => hs hh.symm)]
        cases lastMovedCoords ups r.stop_id <;> rfl

theorem movedRecs_notFound (s : Str) (ups : List UpdateRec) :
    movedRecs (.notFound s :: ups) = movedRecs ups := by
  simp [movedRecs]

theorem movedRecs_upd (sid2 nm : Str) (olon olat nlon nlat : PFloat) (d : ℚ)
    (m : Bool) (ups : List UpdateRec) :
    movedRecs (.upd sid2 nm olon olat nlon nlat d m :: ups) =
      if m then .upd sid2 nm olon olat nlon nlat d m :: movedRecs ups
      else movedRecs ups := by
  cases m <;> simp [movedRecs]

theorem mds_foldl_init :
    ∀ (l : List UpdateRec) (x : ℚ),
      l.foldl (fun a u =>
          match u with | .upd _ _ _ _ _ _ d _ => a + d | _ => a) x =
        x + l.foldl (fun a u =>
          match u with | .upd _ _ _ _ _ _ d _ => a + d | _ => a) 0
  | [], x => by simp
  | u :: l, x => by
    rw [List.foldl_cons, List.foldl_cons, mds_foldl_init l, mds_foldl_init l
      (match u with | .upd _ _ _ _ _ _ d _ => (0 : ℚ) + d | _ => (0 : ℚ))]
    cases u with
    | notFound s => show x + _ = x + ((0 : ℚ) + _); ring
    | upd a b c e f g d m => show x + d + _ = x + ((0 : ℚ) + d + _); ring

theorem movedDistSum_notFound (s : Str) (ups : List UpdateRec) :
    movedDistSum (.notFound s :: ups) = movedDistSum ups := by
  unfold movedDistSum
  rw [movedRecs_notFound]

theorem movedDistSum_upd (sid2 nm : Str) (olon olat nlon nlat : PFloat) (d : ℚ)
    (m : Bool) (ups : List UpdateRec) :
    movedDistSum (.upd sid2 nm olon olat nlon nlat d m :: ups) =
      if m then d + movedDistSum ups else movedDistSum ups := by
  unfold movedDistSum
  rw [movedRecs_upd]
  cases m with
  | false => rw [if_neg (by simp), if_neg (by simp)]
  | true =>
    rw [if_pos rfl, if_pos rfl, List.foldl_cons]
    show (movedRecs ups).foldl _ ((0 : ℚ) + d) = _
    rw [mds_foldl_init]
    ring

theorem applyStopUpdates_spec (dist : DistFn) :
    ∀ (pairs : List ((PFloat × PFloat) × (Str × Str))) (rows : List StopRow)
      (ups0 : List UpdateRec) (mc0 : Nat) (tot0 : ℚ),
      ∃ ups : List UpdateRec,
        applyStopUpdates dist pairs rows ups0 mc0 tot0 =
          (specFinalRows rows ups, ups0 ++ ups,
           mc0 + (movedRecs ups).length, tot0 + movedDistSum ups) ∧
        ups.length = pairs.length ∧
        (∀ u ∈ ups, recFlagOk dist u)
  | [], rows, ups0, mc0, tot0 => by
    refine ⟨[], ?_, rfl, by intro u hu; cases hu⟩
    show (rows, ups0, mc0, tot0) = _
    rw [specFinalRows_nil]
    simp [movedRecs, movedDistSum]
  | (c, visit) :: rest, rows, ups0, mc0, tot0 => by
    have hstep : applyStopUpdates dist ((c, visit) :: rest) rows ups0 mc0 tot0 =
        match rows.find? (fun r => r.stop_id = visit.2) with
        | none =>
          applyStopUpdates dist rest rows (ups0 ++ [.notFound visit.2]) mc0 tot0
        | some row =>
          applyStopUpdates dist rest
            (if decide (dist (row.stop_lat, row.stop_lon) (c.2, c.1) > 1) then
              setStopCoords rows visit.2 c.2 c.1 else rows)
            (ups0 ++ [.upd visit.2 row.stop_name row.stop_lon row.stop_lat c.1 c.2
              (dist (row.stop_lat, row.stop_lon) (c.2, c.1))
              (decide (dist (row.stop_lat, row.stop_lon) (c.2, c.1) > 1))])
            (if decide (dist (row.stop_lat, row.stop_lon) (c.2, c.1) > 1) then
              mc0 + 1 else mc0)
            (if decide (dist (row.stop_lat, row.stop_lon) (c.2, c.1) > 1) then
              tot0 + dist (row.stop_lat, row.stop_lon) (c.2, c.1) else tot0) := rfl
    cases hf : rows.find? (fun r => r.stop_id = visit.2) with
    | none =>
      obtain ⟨ups, heq, hlen, hok⟩ := applyStopUpdates_spec dist rest rows
        (ups0 ++ [.notFound visit.2]) mc0 tot0
      refine ⟨.notFound visit.2 :: ups, ?_, by simp [hlen], ?_⟩
      · rw [hstep, hf, heq, specFinalRows_cons, movedRecs_notFound,
          movedDistSum_notFound]
        simp [applyOne]
      · intro u hu
        rcases List.mem_cons.mp hu with hu | hu
        · rw [hu]; exact trivial
        · exact hok u hu
    | some row =>
      obtain ⟨ups, heq, hlen, hok⟩ := applyStopUpdates_spec dist rest
        (if decide (dist (row.stop_lat, row.stop_lon) (c.2, c.1) > 1) then
          setStopCoords rows visit.2 c.2 c.1 else rows)
        (ups0 ++ [.upd visit.2 row.stop_name row.stop_lon row.stop_lat c.1 c.2
          (dist (row.stop_lat, row.stop_lon) (c.2, c.1))
          (decide (dist (row.stop_lat, row.stop_lon) (c.2, c.1) > 1))])
        (if decide (dist (row.stop_lat, row.stop_lon) (c.2, c.1) > 1) then
          mc0 + 1 else mc0)
        (if decide (dist (row.stop_lat, row.stop_lon) (c.2, c.1) > 1) then
          tot0 + dist (row.stop_lat, row.stop_lon) (c.2, c.1) else tot0)
      refine ⟨.upd visit.2 row.stop_name row.stop_lon row.stop_lat c.1 c.2
        (dist (row.stop_lat, row.stop_lon) (c.2, c.1))
        (decide (dist (row.stop_lat, row.stop_lon) (c.2, c.1) > 1)) :: ups,
        ?_, by simp [hlen], ?_⟩
      · rw [hstep, hf]
        refine Eq.trans heq ?_
        rw [specFinalRows_cons, movedRecs_upd, movedDistSum_upd]
        cases hd : decide (dist (row.stop_lat, row.stop_lon) (c.2, c.1) > 1) with
        | true =>
          simp only [applyOne, reduceIte]
          refine congrArg₂ Prod.mk rfl (congrArg₂ Prod.mk (by simp)
            (congrArg₂ Prod.mk (by simp only [List.length_cons]; omega) (by ring)))
        | false =>
          simp only [applyOne, reduceIte]
          refine congrArg₂ Prod.mk rfl (congrArg₂ Prod.mk (by simp)
            (congrArg₂ Prod.mk rfl rfl))
      · intro u hu
        rcases List.mem_cons.mp hu with hu | hu
        · rw [hu]; exact ⟨rfl, rfl⟩
        · exact hok u hu

theorem nogosSection_stops (a : RecArgs) (t : Trip) (fs : FileSys) :
    (nogosSection a t fs).2.stops = fs.stops := by
  unfold nogosSection
  repeat' split
  all_goals try rfl
  all_goals simp only [ne_eq]
  all_goals split <;> rfl

theorem guidesSection_stops (a : RecArgs) (t : Trip)
    (detected : List (PFloat × PFloat × Nat)) (fs : FileSys) :
    (guidesSection a t detected fs).2.stops = fs.stops := by
  unfold guidesSection
  repeat' split
  all_goals rfl

/-- Claim C6: on a successful reconciliation, every recorded update
carries the oracle distance from the stop's stored coordinate to its new
coordinate and is flagged moved exactly when that distance exceeds 1.0 m;
the move count and total distance aggregate exactly the moved records;
the average is total/count when at least one stop moved and 0 otherwise;
and the written stop table overwrites each row's coordinates by its
stop's last moved update. -/
theorem c6_move_threshold_and_stats
    (dist : DistFn) (a : RecArgs) (fs : FileSys) (sf : StopsFile) (trip : Trip)
    (r : RecOk) (fs2 : FileSys)
    (hval : validateBrouterUrl a.url = none)
    (hcs : extract_coords_from_brouter_url a.url ≠ [])
    (htrip : findTrip a.trips a.trip_id = some trip)
    (hsf : fs.stops = some sf)
    (hmiss : requiredColumns.filter (fun c => c ∉ sf.cols) = [])
    (hlen : (stopOnlyCoords (extract_coords_from_brouter_url a.url)
        (guideMatch dist (extract_coords_from_brouter_url a.url)
          (((extract_pois_from_brouter_url a.url).filter
            (fun p => p.2.2 = strLit "GUIDE")).map (fun p => (p.1, p.2.1)))
          [] []).1).length =
      (sortedStopTimes trip.stop_times).length)
    (hw : a.stopsWriteOk = true)
    (h : update_stop_positions_from_url dist a fs = (.ok r, fs2)) :
    (∀ u ∈ r.updates, recFlagOk dist u) ∧
    r.total_stops = r.updates.length ∧
    r.stops_moved = (movedRecs r.updates).length ∧
    r.total_distance_m = movedDistSum r.updates ∧
    r.avg_distance_m =
      (if 0 < r.stops_moved then r.total_distance_m / (r.stops_moved : ℚ) else 0) ∧
    fs2.stops = some ⟨sf.cols, specFinalRows sf.rows r.updates⟩ := by
  obtain ⟨ups, heq, hlenU, hok⟩ := applyStopUpdates_spec dist
    ((stopOnlyCoords (extract_coords_from_brouter_url a.url)
      (guideMatch dist (extract_coords_from_brouter_url a.url)
        (((extract_pois_from_brouter_url a.url).filter
          (fun p => p.2.2 = strLit "GUIDE")).map (fun p => (p.1, p.2.1)))
        [] []).1).zip (sortedStopTimes trip.stop_times)) sf.rows [] 0 0
  have hmain : update_stop_positions_from_url dist a fs =
      (.ok { trip_id := a.trip_id,
             total_stops := ups.length,
             stops_moved := (movedRecs ups).length,
             total_distance_m := movedDistSum ups,
             avg_distance_m := if 0 < (movedRecs ups).length then
               movedDistSum ups / (((movedRecs ups).length : ℚ)) else 0,
             updates := ups,
             straight_indices := extract_straight_from_brouter_url a.url,
             nogos_info := (nogosSection a trip
               { fs with stops := some ⟨sf.cols, specFinalRows sf.rows ups⟩ }).1,
             guides_info := (guidesSection a trip
               (guideMatch dist (extract_coords_from_brouter_url a.url)
                 (((extract_pois_from_brouter_url a.url).filter
                   (fun p => p.2.2 = strLit "GUIDE")).map (fun p => (p.1, p.2.1)))
                 [] []).2
               (nogosSection a trip
                 { fs with stops := some ⟨sf.cols,
                     specFinalRows sf.rows ups⟩ }).2).1 },
       (guidesSection a trip
         (guideMatch dist (extract_coords_from_brouter_url a.url)
           (((extract_pois_from_brouter_url a.url).filter
             (fun p => p.2.2 = strLit "GUIDE")).map (fun p => (p.1, p.2.1)))
           [] []).2
         (nogosSection a trip
           { fs with stops := some ⟨sf.cols, specFinalRows sf.rows ups⟩ }).2).2) := by
    unfold update_stop_positions_from_url
    rw [hval, htrip, hsf]
    simp only [if_neg hcs, hmiss]
    rw [if_neg (by simp : ¬(([] : List Str) ≠ []))]
    rw [if_neg (fun hne => hne hlen)]
    rw [heq]
    rw [if_neg (fun hn => hn hw)]
    simp
  rw [hmain] at h
  rw [Prod.mk.injEq] at h
  obtain ⟨h1, h2⟩ := h
  have hr := (RecResult.ok.injEq _ _).mp h1
  rw [← hr, ← h2]
  refine ⟨hok, rfl, rfl, rfl, rfl, ?_⟩
  rw [guidesSection_stops, nogosSection_stops]

theorem c6_move_threshold_and_stats_witness :
    (RecOk.total_stops ⟨strLit "T", 1, 0, 0, 0,
        [.upd (strLit "A") (strLit "Stop A") ⟨6, 0⟩ ⟨5, 0⟩ ⟨1, 0⟩ ⟨2, 0⟩ 0 false],
        [], {}, {}⟩ =
      (RecOk.updates ⟨strLit "T", 1, 0, 0, 0,
        [.upd (strLit "A") (strLit "Stop A") ⟨6, 0⟩ ⟨5, 0⟩ ⟨1, 0⟩ ⟨2, 0⟩ 0 false],
        [], {}, {}⟩).length) ∧
    (RecOk.stops_moved ⟨strLit "T", 1, 0, 0, 0,
        [.upd (strLit "A") (strLit "Stop A") ⟨6, 0⟩ ⟨5, 0⟩ ⟨1, 0⟩ ⟨2, 0⟩ 0 false],
        [], {}, {}⟩ =
      (movedRecs (RecOk.updates ⟨strLit "T", 1, 0, 0, 0,
        [.upd (strLit "A") (strLit "Stop A") ⟨6, 0⟩ ⟨5, 0⟩ ⟨1, 0⟩ ⟨2, 0⟩ 0 false],
        [], {}, {}⟩)).length) ∧
    (RecOk.total_distance_m ⟨strLit "T", 1, 0, 0, 0,
        [.upd (strLit "A") (strLit "Stop A") ⟨6, 0⟩ ⟨5, 0⟩ ⟨1, 0⟩ ⟨2, 0⟩ 0 false],
        [], {}, {}⟩ =
      movedDistSum (RecOk.updates ⟨strLit "T", 1, 0, 0, 0,
        [.upd (strLit "A") (strLit "Stop A") ⟨6, 0⟩ ⟨5, 0⟩ ⟨1, 0⟩ ⟨2, 0⟩ 0 false],
        [], {}, {}⟩)) ∧
    (RecOk.avg_distance_m ⟨strLit "T", 1, 0, 0, 0,
        [.upd (strLit "A") (strLit "Stop A") ⟨6, 0⟩ ⟨5, 0⟩ ⟨1, 0⟩ ⟨2, 0⟩ 0 false],
        [], {}, {}⟩ =
      (if 0 < RecOk.stops_moved ⟨strLit "T", 1, 0, 0, 0,
          [.upd (strLit "A") (strLit "Stop A") ⟨6, 0⟩ ⟨5, 0⟩ ⟨1, 0⟩ ⟨2, 0⟩ 0 false],
          [], {}, {}⟩ then
        RecOk.total_distance_m ⟨strLit "T", 1, 0, 0, 0,
          [.upd (strLit "A") (strLit "Stop A") ⟨6, 0⟩ ⟨5, 0⟩ ⟨1, 0⟩ ⟨2, 0⟩ 0 false],
          [], {}, {}⟩ /
        ((RecOk.stops_moved ⟨strLit "T", 1, 0, 0, 0,
          [.upd (strLit "A") (strLit "Stop A") ⟨6, 0⟩ ⟨5, 0⟩ ⟨1, 0⟩ ⟨2, 0⟩ 0 false],
          [], {}, {}⟩ : ℕ) : ℚ)
      else 0)) ∧
    (FileSys.stops ⟨some ⟨requiredColumns,
        [⟨strLit "A", strLit "Stop A", ⟨5, 0⟩, ⟨6, 0⟩⟩]⟩, none, none⟩ =
      some ⟨(⟨requiredColumns,
          [⟨strLit "A", strLit "Stop A", ⟨5, 0⟩, ⟨6, 0⟩⟩]⟩ : StopsFile).cols,
        specFinalRows (⟨requiredColumns,
          [⟨strLit "A", strLit "Stop A", ⟨5, 0⟩, ⟨6, 0⟩⟩]⟩ : StopsFile).rows
          (RecOk.updates ⟨strLit "T", 1, 0, 0, 0,
            [.upd (strLit "A") (strLit "Stop A") ⟨6, 0⟩ ⟨5, 0⟩ ⟨1, 0⟩ ⟨2, 0⟩ 0 false],
            [], {}, {}⟩)⟩) :=
  (c6_move_threshold_and_stats (fun _ _ => 0)
    ⟨strLit "http://brouter.de/#lonlats=1,2", strLit "T",
      [⟨strLit "T", none, [(strLit "08:00", strLit "A")]⟩],
      false, false, true, true, true⟩
    ⟨some ⟨requiredColumns, [⟨strLit "A", strLit "Stop A", ⟨5, 0⟩, ⟨6, 0⟩⟩]⟩,
      none, none⟩
    ⟨requiredColumns, [⟨strLit "A", strLit "Stop A", ⟨5, 0⟩, ⟨6, 0⟩⟩]⟩
    ⟨strLit "T", none, [(strLit "08:00", strLit "A")]⟩
    ⟨strLit "T", 1, 0, 0, 0,
      [.upd (strLit "A") (strLit "Stop A") ⟨6, 0⟩ ⟨5, 0⟩ ⟨1, 0⟩ ⟨2, 0⟩ 0 false],
      [], {}, {}⟩
    ⟨some ⟨requiredColumns, [⟨strLit "A", strLit "Stop A", ⟨5, 0⟩, ⟨6, 0⟩⟩]⟩,
      none, none⟩
    rfl (by decide) rfl rfl rfl (by decide) rfl rfl).2

theorem filter_eq_after_filter_ne {α κ : Type} [DecidableEq κ] (k : κ) (f : α → κ) :
    ∀ l : List α, (l.filter (fun x => f x ≠ k)).filter (fun x => f x = k) = []
  | [] => rfl
  | x :: l => by
    by_cases h : f x = k <;>
      simp [h, filter_eq_after_filter_ne k f l]

theorem filter_ne_after_filter_ne {α κ : Type} [DecidableEq κ] (k : κ) (f : α → κ) :
    ∀ l : List α,
      (l.filter (fun x => f x ≠ k)).filter (fun x => f x ≠ k) =
        l.filter (fun x => f x ≠ k)
  | [] => rfl
  | x :: l => by
    by_cases h : f x = k <;>
      simp [h, filter_ne_after_filter_ne k f l]

theorem recomputedGuideRows_shape (sid : Str) (detected : List (PFloat × PFloat × Nat)) :
    ∀ r ∈ recomputedGuideRows sid detected, r.shape_id = sid := by
  intro r hr
  obtain ⟨g, _, hg⟩ := List.mem_map.mp hr
  rw [← hg]

/-- Claim C7, amended: the guide rows for the trip's shape are replaced
by exactly the recomputed detected guides only when a guides path is
configured, at least one guide was detected, the trip's shape id is
truthy and the guarded write does not raise; the rows of every other
shape are untouched, and the reported guide list carries the recomputed
positions (original index minus the number of detected guides at a
smaller index). -/
theorem c7_guides_full_replace
    (a : RecArgs) (trip : Trip) (detected : List (PFloat × PFloat × Nat))
    (fs : FileSys) (sid : Str)
    (hcfg : a.guidesCfg = true) (hdet : detected ≠ [])
    (hshape : shapeTruthy trip.shape_id = true)
    (hio : a.guidesIoOk = true)
    (hsid : trip.shape_id.getD [] = sid) :
    ((guidesSection a trip detected fs).2.guides).isSome = true ∧
    ((guidesSection a trip detected fs).2.guides.getD []).filter
        (fun r => r.shape_id = sid) = recomputedGuideRows sid detected ∧
    ((guidesSection a trip detected fs).2.guides.getD []).filter
        (fun r => r.shape_id ≠ sid) =
      (fs.guides.getD []).filter (fun r => r.shape_id ≠ sid) ∧
    (guidesSection a trip detected fs).1.guides =
      (recomputedGuideRows sid detected).map
        (fun r => (r.stop_lon, r.stop_lat, r.position)) ∧
    (guidesSection a trip detected fs).1.updated = true := by
  have hcond : (a.guidesCfg = true) ∧ detected ≠ [] ∧ shapeTruthy trip.shape_id = true :=
    ⟨hcfg, hdet, hshape⟩
  have hmain : guidesSection a trip detected fs =
      ({ created := fs.guides.isNone, updated := true,
         count := (recomputedGuideRows (trip.shape_id.getD []) detected).length,
         guides := (recomputedGuideRows (trip.shape_id.getD []) detected).map
           (fun r => (r.stop_lon, r.stop_lat, r.position)) },
       FileSys.mk fs.stops fs.nogos
         (some (((fs.guides.getD []).filter
             (fun r => r.shape_id ≠ trip.shape_id.getD [])) ++
           recomputedGuideRows (trip.shape_id.getD []) detected))) := by
    unfold guidesSection
    rw [if_pos hcond]
    rw [if_neg (fun hn => hn hio)]
  rw [hsid] at hmain
  refine ⟨?_, ?_, ?_, ?_, ?_⟩
  · rw [hmain]
    rfl
  · rw [hmain]
    show (((fs.guides.getD []).filter (fun r => r.shape_id ≠ sid)) ++
      recomputedGuideRows sid detected).filter (fun r => r.shape_id = sid) = _
    rw [List.filter_append, filter_eq_after_filter_ne,
      List.filter_eq_self.mpr
        (fun r hr => decide_eq_true (recomputedGuideRows_shape sid detected r hr)),
      List.nil_append]
  · rw [hmain]
    show (((fs.guides.getD []).filter (fun r => r.shape_id ≠ sid)) ++
      recomputedGuideRows sid detected).filter (fun r => r.shape_id ≠ sid) = _
    rw [List.filter_append, filter_ne_after_filter_ne,
      show (recomputedGuideRows sid detected).filter
          (fun r => r.shape_id ≠ sid) = [] from
        List.filter_eq_nil_iff.mpr
          (fun r hr => by simp [recomputedGuideRows_shape sid detected r hr]),
      List.append_nil]
  · rw [hmain]
  · rw [hmain]

theorem c7_guides_full_replace_witness :
    ((guidesSection ⟨strLit "u", strLit "T", [], false, true, true, true, true⟩
        ⟨strLit "T", some (strLit "S"), []⟩ [(⟨1, 0⟩, ⟨2, 0⟩, 0)]
        ⟨none, none, some [⟨strLit "S", ⟨9, 0⟩, ⟨9, 0⟩, 7⟩,
          ⟨strLit "R", ⟨8, 0⟩, ⟨8, 0⟩, 1⟩]⟩).2.guides).isSome = true ∧
    ((guidesSection ⟨strLit "u", strLit "T", [], false, true, true, true, true⟩
        ⟨strLit "T", some (strLit "S"), []⟩ [(⟨1, 0⟩, ⟨2, 0⟩, 0)]
        ⟨none, none, some [⟨strLit "S", ⟨9, 0⟩, ⟨9, 0⟩, 7⟩,
          ⟨strLit "R", ⟨8, 0⟩, ⟨8, 0⟩, 1⟩]⟩).2.guides.getD []).filter
        (fun r => r.shape_id = strLit "S") =
      recomputedGuideRows (strLit "S") [(⟨1, 0⟩, ⟨2, 0⟩, 0)] ∧
    ((guidesSection ⟨strLit "u", strLit "T", [], false, true, true, true, true⟩
        ⟨strLit "T", some (strLit "S"), []⟩ [(⟨1, 0⟩, ⟨2, 0⟩, 0)]
        ⟨none, none, some [⟨strLit "S", ⟨9, 0⟩, ⟨9, 0⟩, 7⟩,
          ⟨strLit "R", ⟨8, 0⟩, ⟨8, 0⟩, 1⟩]⟩).2.guides.getD []).filter
        (fun r => r.shape_id ≠ strLit "S") =
      ((FileSys.mk none none (some [⟨strLit "S", ⟨9, 0⟩, ⟨9, 0⟩, 7⟩,
        ⟨strLit "R", ⟨8, 0⟩, ⟨8, 0⟩, 1⟩])).guides.getD []).filter
        (fun r => r.shape_id ≠ strLit "S") ∧
    (guidesSection ⟨strLit "u", strLit "T", [], false, true, true, true, true⟩
        ⟨strLit "T", some (strLit "S"), []⟩ [(⟨1, 0⟩, ⟨2, 0⟩, 0)]
        ⟨none, none, some [⟨strLit "S", ⟨9, 0⟩, ⟨9, 0⟩, 7⟩,
          ⟨strLit "R", ⟨8, 0⟩, ⟨8, 0⟩, 1⟩]⟩).1.guides =
      (recomputedGuideRows (strLit "S") [(⟨1, 0⟩, ⟨2, 0⟩, 0)]).map
        (fun r => (r.stop_lon, r.stop_lat, r.position)) ∧
    (guidesSection ⟨strLit "u", strLit "T", [], false, true, true, true, true⟩
        ⟨strLit "T", some (strLit "S"), []⟩ [(⟨1, 0⟩, ⟨2, 0⟩, 0)]
        ⟨none, none, some [⟨strLit "S", ⟨9, 0⟩, ⟨9, 0⟩, 7⟩,
          ⟨strLit "R", ⟨8, 0⟩, ⟨8, 0⟩, 1⟩]⟩).1.updated = true :=
  c7_guides_full_replace
    ⟨strLit "u", strLit "T", [], false, true, true, true, true⟩
    ⟨strLit "T", some (strLit "S"), []⟩ [(⟨1, 0⟩, ⟨2, 0⟩, 0)]
    ⟨none, none, some [⟨strLit "S", ⟨9, 0⟩, ⟨9, 0⟩, 7⟩,
      ⟨strLit "R", ⟨8, 0⟩, ⟨8, 0⟩, 1⟩]⟩ (strLit "S")
    rfl (by decide) (by decide) rfl rfl

theorem c7_guides_counterexample :
    recomputedGuideRows (strLit "S") [] = [] ∧
    (update_stop_positions_from_url (fun _ _ => 0)
        ⟨strLit "http://brouter.de/#lonlats=1,2", strLit "T",
          [⟨strLit "T", some (strLit "S"), [(strLit "08:00", strLit "A")]⟩],
          false, true, true, true, true⟩
        ⟨some ⟨requiredColumns, [⟨strLit "A", strLit "Stop A", ⟨5, 0⟩, ⟨6, 0⟩⟩]⟩,
          none, some [⟨strLit "S", ⟨9, 0⟩, ⟨9, 0⟩, 7⟩]⟩).2.guides =
      some [⟨strLit "S", ⟨9, 0⟩, ⟨9, 0⟩, 7⟩] ∧
    (match (update_stop_positions_from_url (fun _ _ => 0)
        ⟨strLit "http://brouter.de/#lonlats=1,2", strLit "T",
          [⟨strLit "T", some (strLit "S"), [(strLit "08:00", strLit "A")]⟩],
          false, true, true, true, true⟩
        ⟨some ⟨requiredColumns, [⟨strLit "A", strLit "Stop A", ⟨5, 0⟩, ⟨6, 0⟩⟩]⟩,
          none, some [⟨strLit "S", ⟨9, 0⟩, ⟨9, 0⟩, 7⟩]⟩).1 with
      | .ok _ => true
      | _ => false) = true :=
  ⟨rfl, rfl, rfl⟩

theorem nogoRows_shape (sid : Str) (ns : List (PFloat × PFloat × Int)) :
    ∀ r ∈ ns.map (fun n => NogoRow.mk sid n.2.1 n.1 n.2.2), r.shape_id = sid := by
  intro r hr
  obtain ⟨n, _, hn⟩ := List.mem_map.mp hr
  rw [← hn]

/-- Claim C8, amended: the nogo rows for the trip's shape are replaced
by exactly the nogos decoded from the URL only when a nogos path is
configured, at least one nogo was decoded, the trip's shape id is truthy
and the guarded write does not raise; the rows of every other shape are
untouched. -/
theorem c8_nogos_full_replace
    (a : RecArgs) (trip : Trip) (fs : FileSys) (sid : Str)
    (hcfg : a.nogosCfg = true)
    (hne : extract_nogos_from_brouter_url a.url ≠ [])
    (hshape : shapeTruthy trip.shape_id = true)
    (hio : a.nogosIoOk = true)
    (hsid : trip.shape_id.getD [] = sid) :
    ((nogosSection a trip fs).2.nogos).isSome = true ∧
    ((nogosSection a trip fs).2.nogos.getD []).filter
        (fun r => r.shape_id = sid) =
      (extract_nogos_from_brouter_url a.url).map
        (fun n => NogoRow.mk sid n.2.1 n.1 n.2.2) ∧
    ((nogosSection a trip fs).2.nogos.getD []).filter
        (fun r => r.shape_id ≠ sid) =
      (fs.nogos.getD []).filter (fun r => r.shape_id ≠ sid) ∧
    (nogosSection a trip fs).1.nogos = extract_nogos_from_brouter_url a.url ∧
    (nogosSection a trip fs).1.updated = true := by
  have hmain : nogosSection a trip fs =
      ({ created := fs.nogos.isNone, updated := true,
         count := ((extract_nogos_from_brouter_url a.url).map
           (fun n => NogoRow.mk (trip.shape_id.getD []) n.2.1 n.1 n.2.2)).length,
         nogos := extract_nogos_from_brouter_url a.url },
       FileSys.mk fs.stops
         (some (((fs.nogos.getD []).filter
             (fun r => r.shape_id ≠ trip.shape_id.getD [])) ++
           (extract_nogos_from_brouter_url a.url).map
             (fun n => NogoRow.mk (trip.shape_id.getD []) n.2.1 n.1 n.2.2)))
         fs.guides) := by
    unfold nogosSection
    rw [if_neg (fun hn => hn hcfg)]
    rw [if_pos ⟨hne, hshape⟩]
    rw [if_neg (fun hn => hn hio)]
  rw [hsid] at hmain
  refine ⟨?_, ?_, ?_, ?_, ?_⟩
  · rw [hmain]
    rfl
  · rw [hmain]
    show (((fs.nogos.getD []).filter (fun r => r.shape_id ≠ sid)) ++
      (extract_nogos_from_brouter_url a.url).map
        (fun n => NogoRow.mk sid n.2.1 n.1 n.2.2)).filter
      (fun r => r.shape_id = sid) = _
    rw [List.filter_append, filter_eq_after_filter_ne,
      List.filter_eq_self.mpr
        (fun r hr => decide_eq_true
          (nogoRows_shape sid (extract_nogos_from_brouter_url a.url) r hr)),
      List.nil_append]
  · rw [hmain]
    show (((fs.nogos.getD []).filter (fun r => r.shape_id ≠ sid)) ++
      (extract_nogos_from_brouter_url a.url).map
        (fun n => NogoRow.mk sid n.2.1 n.1 n.2.2)).filter
      (fun r => r.shape_id ≠ sid) = _
    rw [List.filter_append, filter_ne_after_filter_ne,
      show ((extract_nogos_from_brouter_url a.url).map
          (fun n => NogoRow.mk sid n.2.1 n.1 n.2.2)).filter
          (fun r => r.shape_id ≠ sid) = [] from
        List.filter_eq_nil_iff.mpr
          (fun r hr => by
            simp [nogoRows_shape sid (extract_nogos_from_brouter_url a.url) r hr]),
      List.append_nil]
  · rw [hmain]
  · rw [hmain]

theorem c8_nogos_full_replace_witness :
    ((nogosSection ⟨strLit "http://brouter.de/#nogos=1,2,3", strLit "T", [],
        true, false, true, true, true⟩
        ⟨strLit "T", some (strLit "S"), []⟩
        ⟨none, some [⟨strLit "S", ⟨9, 0⟩, ⟨9, 0⟩, 7⟩,
          ⟨strLit "R", ⟨8, 0⟩, ⟨8, 0⟩, 1⟩], none⟩).2.nogos).isSome = true ∧
    ((nogosSection ⟨strLit "http://brouter.de/#nogos=1,2,3", strLit "T", [],
        true, false, true, true, true⟩
        ⟨strLit "T", some (strLit "S"), []⟩
        ⟨none, some [⟨strLit "S", ⟨9, 0⟩, ⟨9, 0⟩, 7⟩,
          ⟨strLit "R", ⟨8, 0⟩, ⟨8, 0⟩, 1⟩], none⟩).2.nogos.getD []).filter
        (fun r => r.shape_id = strLit "S") =
      (extract_nogos_from_brouter_url
        (strLit "http://brouter.de/#nogos=1,2,3")).map
        (fun n => NogoRow.mk (strLit "S") n.2.1 n.1 n.2.2) ∧
    ((nogosSection ⟨strLit "http://brouter.de/#nogos=1,2,3", strLit "T", [],
        true, false, true, true, true⟩
        ⟨strLit "T", some (strLit "S"), []⟩
        ⟨none, some [⟨strLit "S", ⟨9, 0⟩, ⟨9, 0⟩, 7⟩,
          ⟨strLit "R", ⟨8, 0⟩, ⟨8, 0⟩, 1⟩], none⟩).2.nogos.getD []).filter
        (fun r => r.shape_id ≠ strLit "S") =
      ((FileSys.mk none (some [⟨strLit "S", ⟨9, 0⟩, ⟨9, 0⟩, 7⟩,
        ⟨strLit "R", ⟨8, 0⟩, ⟨8, 0⟩, 1⟩]) none).nogos.getD []).filter
        (fun r => r.shape_id ≠ strLit "S") ∧
    (nogosSection ⟨strLit "http://brouter.de/#nogos=1,2,3", strLit "T", [],
        true, false, true, true, true⟩
        ⟨strLit "T", some (strLit "S"), []⟩
        ⟨none, some [⟨strLit "S", ⟨9, 0⟩, ⟨9, 0⟩, 7⟩,
          ⟨strLit "R", ⟨8, 0⟩, ⟨8, 0⟩, 1⟩], none⟩).1.nogos =
      extract_nogos_from_brouter_url (strLit "http://brouter.de/#nogos=1,2,3") ∧
    (nogosSection ⟨strLit "http://brouter.de/#nogos=1,2,3", strLit "T", [],
        true, false, true, true, true⟩
        ⟨strLit "T", some (strLit "S"), []⟩
        ⟨none, some [⟨strLit "S", ⟨9, 0⟩, ⟨9, 0⟩, 7⟩,
          ⟨strLit "R", ⟨8, 0⟩, ⟨8, 0⟩, 1⟩], none⟩).1.updated = true :=
  c8_nogos_full_replace
    ⟨strLit "http://brouter.de/#nogos=1,2,3", strLit "T", [],
      true, false, true, true, true⟩
    ⟨strLit "T", some (strLit "S"), []⟩
    ⟨none, some [⟨strLit "S", ⟨9, 0⟩, ⟨9, 0⟩, 7⟩,
      ⟨strLit "R", ⟨8, 0⟩, ⟨8, 0⟩, 1⟩], none⟩ (strLit "S")
    rfl (by decide) (by decide) rfl rfl

theorem c8_nogos_counterexample :
    extract_nogos_from_brouter_url (strLit "http://brouter.de/#lonlats=1,2") = [] ∧
    (update_stop_positions_from_url (fun _ _ => 0)
        ⟨strLit "http://brouter.de/#lonlats=1,2", strLit "T",
          [⟨strLit "T", some (strLit "S"), [(strLit "08:00", strLit "A")]⟩],
          true, false, true, true, true⟩
        ⟨some ⟨requiredColumns, [⟨strLit "A", strLit "Stop A", ⟨5, 0⟩, ⟨6, 0⟩⟩]⟩,
          some [⟨strLit "S", ⟨9, 0⟩, ⟨9, 0⟩, 7⟩], none⟩).2.nogos =
      some [⟨strLit "S", ⟨9, 0⟩, ⟨9, 0⟩, 7⟩] ∧
    (match (update_stop_positions_from_url (fun _ _ => 0)
        ⟨strLit "http://brouter.de/#lonlats=1,2", strLit "T",
          [⟨strLit "T", some (strLit "S"), [(strLit "08:00", strLit "A")]⟩],
          true, false, true, true, true⟩
        ⟨some ⟨requiredColumns, [⟨strLit "A", strLit "Stop A", ⟨5, 0⟩, ⟨6, 0⟩⟩]⟩,
          some [⟨strLit "S", ⟨9, 0⟩, ⟨9, 0⟩, 7⟩], none⟩).1 with
      | .ok _ => true
      | _ => false) = true :=
  ⟨rfl, rfl, rfl⟩

theorem find?_setStopCoords (rows : List StopRow) (sid s : Str)
    (lat lon : PFloat) :
    (setStopCoords rows sid lat lon).find? (fun r => r.stop_id = s) = none ↔
      rows.find? (fun r => r.stop_id = s) = none := by
  unfold setStopCoords
  rw [List.find?_map]
  have hp : ((fun r => decide (r.stop_id = s)) ∘
      (fun r => if r.stop_id = sid then
        { r with stop_lat := lat, stop_lon := lon } else r)) =
      fun (r : StopRow) => decide (r.stop_id = s) := by
    funext r
    by_cases h : r.stop_id = sid <;> simp [h]
  rw [hp]
  exact Option.map_eq_none'

theorem applyStopUpdates_notFound (dist : DistFn) :
    ∀ (pairs : List ((PFloat × PFloat) × (Str × Str))) (rows : List StopRow)
      (ups0 : List UpdateRec) (mc0 : Nat) (tot0 : ℚ)
      (pr : (PFloat × PFloat) × (Str × Str)),
      pr ∈ pairs → rows.find? (fun row => row.stop_id = pr.2.2) = none →
      UpdateRec.notFound pr.2.2 ∈
        (applyStopUpdates dist pairs rows ups0 mc0 tot0).2.1
  | [], rows, ups0, mc0, tot0, pr => by
    intro hpr
    cases hpr
  | (c, visit) :: rest, rows, ups0, mc0, tot0, pr => by
    intro hpr hfind
    have hstep : applyStopUpdates dist ((c, visit) :: rest) rows ups0 mc0 tot0 =
        match rows.find? (fun r => r.stop_id = visit.2) with
        | none =>
          applyStopUpdates dist rest rows (ups0 ++ [.notFound visit.2]) mc0 tot0
        | some row =>
          applyStopUpdates dist rest
            (if decide (dist (row.stop_lat, row.stop_lon) (c.2, c.1) > 1) then
              setStopCoords rows visit.2 c.2 c.1 else rows)
            (ups0 ++ [.upd visit.2 row.stop_name row.stop_lon row.stop_lat c.1 c.2
              (dist (row.stop_lat, row.stop_lon) (c.2, c.1))
              (decide (dist (row.stop_lat, row.stop_lon) (c.2, c.1) > 1))])
            (if decide (dist (row.stop_lat, row.stop_lon) (c.2, c.1) > 1) then
              mc0 + 1 else mc0)
            (if decide (dist (row.stop_lat, row.stop_lon) (c.2, c.1) > 1) then
              tot0 + dist (row.stop_lat, row.stop_lon) (c.2, c.1) else tot0) := rfl
    rcases List.mem_cons.mp hpr with heq | hmem
    · subst heq
      rw [hstep, hfind]
      obtain ⟨ups, heq2, _, _⟩ := applyStopUpdates_spec dist rest rows
        (ups0 ++ [.notFound visit.2]) mc0 tot0
      rw [heq2]
      simp
    · cases hf : rows.find? (fun r => r.stop_id = visit.2) with
      | none =>
        rw [hstep, hf]
        exact applyStopUpdates_notFound dist rest rows
          (ups0 ++ [.notFound visit.2]) mc0 tot0 pr hmem hfind
      | some row =>
        rw [hstep, hf]
        exact applyStopUpdates_notFound dist rest
          (if decide (dist (row.stop_lat, row.stop_lon) (c.2, c.1) > 1) then
            setStopCoords rows visit.2 c.2 c.1 else rows)
          (ups0 ++ [.upd visit.2 row.stop_name row.stop_lon row.stop_lat c.1 c.2
            (dist (row.stop_lat, row.stop_lon) (c.2, c.1))
            (decide (dist (row.stop_lat, row.stop_lon) (c.2, c.1) > 1))])
          (if decide (dist (row.stop_lat, row.stop_lon) (c.2, c.1) > 1) then
            mc0 + 1 else mc0)
          (if decide (dist (row.stop_lat, row.stop_lon) (c.2, c.1) > 1) then
            tot0 + dist (row.stop_lat, row.stop_lon) (c.2, c.1) else tot0)
          pr hmem
          (by
            split
            · exact (find?_setStopCoords rows visit.2 pr.2.2 c.2 c.1).mpr hfind
            · exact hfind)

theorem update_error_frame (dist : DistFn) (a : RecArgs) (fs : FileSys) :
    recIsOk (update_stop_positions_from_url dist a fs).1 = false →
    (update_stop_positions_from_url dist a fs).2 = fs := by
  unfold update_stop_positions_from_url
  split
  · intro _
    rfl
  · simp only [ne_eq]
    split
    · intro _
      rfl
    · split
      · intro _
        rfl
      · split
        · intro _
          rfl
        · split
          · intro _
            rfl
          · split
            · intro _
              rfl
            · split
              · intro _
                rfl
              · intro h
                exact absurd h (by simp [recIsOk])

theorem update_save_fail
    (dist : DistFn) (a : RecArgs) (fs : FileSys) (sf : StopsFile) (trip : Trip)
    (hval : validateBrouterUrl a.url = none)
    (hcs : extract_coords_from_brouter_url a.url ≠ [])
    (htrip : findTrip a.trips a.trip_id = some trip)
    (hsf : fs.stops = some sf)
    (hmiss : requiredColumns.filter (fun c => c ∉ sf.cols) = [])
    (hlen : (stopOnlyCoords (extract_coords_from_brouter_url a.url)
        (guideMatch dist (extract_coords_from_brouter_url a.url)
          (((extract_pois_from_brouter_url a.url).filter
            (fun p => p.2.2 = strLit "GUIDE")).map (fun p => (p.1, p.2.1)))
          [] []).1).length =
      (sortedStopTimes trip.stop_times).length)
    (hw : a.stopsWriteOk = false) :
    update_stop_positions_from_url dist a fs = (.errSaveStops, fs) := by
  unfold update_stop_positions_from_url
  rw [hval, htrip, hsf]
  simp only [if_neg hcs, hmiss]
  rw [if_neg (by simp : ¬(([] : List Str) ≠ []))]
  rw [if_neg (fun hne => hne hlen)]
  rw [if_pos (by rw [hw]; simp : ¬(a.stopsWriteOk = true))]

theorem guidesSection_io_fail (a : RecArgs) (trip : Trip)
    (detected : List (PFloat × PFloat × Nat)) (fs : FileSys)
    (hcfg : a.guidesCfg = true) (hdet : detected ≠ [])
    (hshape : shapeTruthy trip.shape_id = true) (hio : a.guidesIoOk = false) :
    guidesSection a trip detected fs =
      ({ created := fs.guides.isNone, ioErr := true },
       FileSys.mk fs.stops fs.nogos (some (fs.guides.getD []))) := by
  unfold guidesSection
  rw [if_pos ⟨hcfg, hdet, hshape⟩]
  rw [if_pos (by rw [hio]; simp : ¬(a.guidesIoOk = true))]

theorem nogosSection_io_fail (a : RecArgs) (trip : Trip) (fs : FileSys)
    (hcfg : a.nogosCfg = true)
    (hne : extract_nogos_from_brouter_url a.url ≠ [])
    (hshape : shapeTruthy trip.shape_id = true) (hio : a.nogosIoOk = false) :
    nogosSection a trip fs =
      ({ created := fs.nogos.isNone, ioErr := true },
       FileSys.mk fs.stops (some (fs.nogos.getD [])) fs.guides) := by
  unfold nogosSection
  rw [if_neg (fun hn => hn hcfg)]
  rw [if_pos ⟨hne, hshape⟩]
  rw [if_pos (by rw [hio]; simp : ¬(a.nogosIoOk = true))]

/-- Claim C3, amended: every non-success result (the structural errors
and also the stop-table save error) leaves the file system untouched; a
stop id absent from stops.csv yields a `notFound` record in the update
list without aborting the batch; when the computation succeeded but the
stop-table write raises, the reconciler returns only the save error and
discards the computed result; when an annotation-table guarded write
raises, the failure is reported inside the still-returned result and the
table is only created, never modified. -/
theorem c3_error_policy :
    (∀ (dist : DistFn) (a : RecArgs) (fs : FileSys),
      recIsOk (update_stop_positions_from_url dist a fs).1 = false →
      (update_stop_positions_from_url dist a fs).2 = fs) ∧
    (∀ (dist : DistFn) (pairs : List ((PFloat × PFloat) × (Str × Str)))
      (rows : List StopRow) (ups0 : List UpdateRec) (mc0 : Nat) (tot0 : ℚ)
      (pr : (PFloat × PFloat) × (Str × Str)),
      pr ∈ pairs → rows.find? (fun row => row.stop_id = pr.2.2) = none →
      UpdateRec.notFound pr.2.2 ∈
        (applyStopUpdates dist pairs rows ups0 mc0 tot0).2.1) ∧
    (∀ (dist : DistFn) (a : RecArgs) (fs : FileSys) (sf : StopsFile)
      (trip : Trip),
      validateBrouterUrl a.url = none →
      extract_coords_from_brouter_url a.url ≠ [] →
      findTrip a.trips a.trip_id = some trip →
      fs.stops = some sf →
      requiredColumns.filter (fun c => c ∉ sf.cols) = [] →
      (stopOnlyCoords (extract_coords_from_brouter_url a.url)
        (guideMatch dist (extract_coords_from_brouter_url a.url)
          (((extract_pois_from_brouter_url a.url).filter
            (fun p => p.2.2 = strLit "GUIDE")).map (fun p => (p.1, p.2.1)))
          [] []).1).length = (sortedStopTimes trip.stop_times).length →
      a.stopsWriteOk = false →
      update_stop_positions_from_url dist a fs = (.errSaveStops, fs)) ∧
    (∀ (a : RecArgs) (trip : Trip) (detected : List (PFloat × PFloat × Nat))
      (fs : FileSys),
      a.guidesCfg = true → detected ≠ [] → shapeTruthy trip.shape_id = true →
      a.guidesIoOk = false →
      guidesSection a trip detected fs =
        ({ created := fs.guides.isNone, ioErr := true },
         FileSys.mk fs.stops fs.nogos (some (fs.guides.getD [])))) ∧
    (∀ (a : RecArgs) (trip : Trip) (fs : FileSys),
      a.nogosCfg = true → extract_nogos_from_brouter_url a.url ≠ [] →
      shapeTruthy trip.shape_id = true → a.nogosIoOk = false →
      nogosSection a trip fs =
        ({ created := fs.nogos.isNone, ioErr := true },
         FileSys.mk fs.stops (some (fs.nogos.getD [])) fs.guides)) :=
  ⟨update_error_frame, applyStopUpdates_notFound, update_save_fail,
   guidesSection_io_fail, nogosSection_io_fail⟩

theorem c3_save_discards_counterexample :
    update_stop_positions_from_url (fun _ _ => 0)
        ⟨strLit "http://brouter.de/#lonlats=1,2", strLit "T",
          [⟨strLit "T", none, [(strLit "08:00", strLit "A")]⟩],
          false, false, false, true, true⟩
        ⟨some ⟨requiredColumns, [⟨strLit "A", strLit "Stop A", ⟨5, 0⟩, ⟨6, 0⟩⟩]⟩,
          none, none⟩ =
      (.errSaveStops,
       ⟨some ⟨requiredColumns, [⟨strLit "A", strLit "Stop A", ⟨5, 0⟩, ⟨6, 0⟩⟩]⟩,
        none, none⟩) ∧
    recIsOk .errSaveStops = false :=
  ⟨rfl, rfl⟩

theorem c3_error_policy_witness :
    (update_stop_positions_from_url (fun _ _ => 0)
        ⟨strLit "x", strLit "T", [], false, false, true, true, true⟩
        (FileSys.mk none none none)).2 = FileSys.mk none none none ∧
    UpdateRec.notFound (strLit "B") ∈
      (applyStopUpdates (fun _ _ => 0)
        [((⟨1, 0⟩, ⟨2, 0⟩), (strLit "08:00", strLit "B"))] [] [] 0 0).2.1 ∧
    update_stop_positions_from_url (fun _ _ => 0)
        ⟨strLit "http://brouter.de/#lonlats=1,2", strLit "T",
          [⟨strLit "T", none, [(strLit "08:00", strLit "A")]⟩],
          false, false, false, true, true⟩
        (FileSys.mk (some ⟨requiredColumns,
          [⟨strLit "A", strLit "Stop A", ⟨5, 0⟩, ⟨6, 0⟩⟩]⟩) none none) =
      (.errSaveStops,
       FileSys.mk (some ⟨requiredColumns,
         [⟨strLit "A", strLit "Stop A", ⟨5, 0⟩, ⟨6, 0⟩⟩]⟩) none none) ∧
    guidesSection ⟨strLit "u", strLit "T", [], false, true, true, true, false⟩
        ⟨strLit "T", some (strLit "S"), []⟩ [(⟨1, 0⟩, ⟨2, 0⟩, 0)]
        (FileSys.mk none none none) =
      ({ created := (FileSys.mk none none none).guides.isNone, ioErr := true },
       FileSys.mk (FileSys.mk none none none).stops (FileSys.mk none none none).nogos
         (some ((FileSys.mk none none none).guides.getD []))) ∧
    nogosSection ⟨strLit "http://brouter.de/#nogos=1,2,3", strLit "T", [],
        true, false, true, false, true⟩
        ⟨strLit "T", some (strLit "S"), []⟩ (FileSys.mk none none none) =
      ({ created := (FileSys.mk none none none).nogos.isNone, ioErr := true },
       FileSys.mk (FileSys.mk none none none).stops
         (some ((FileSys.mk none none none).nogos.getD []))
         (FileSys.mk none none none).guides) :=
  ⟨c3_error_policy.1 (fun _ _ => 0)
      ⟨strLit "x", strLit "T", [], false, false, true, true, true⟩
      (FileSys.mk none none none) rfl,
   c3_error_policy.2.1 (fun _ _ => 0)
      [((⟨1, 0⟩, ⟨2, 0⟩), (strLit "08:00", strLit "B"))] [] [] 0 0
      ((⟨1, 0⟩, ⟨2, 0⟩), (strLit "08:00", strLit "B")) (by decide) rfl,
   c3_error_policy.2.2.1 (fun _ _ => 0)
      ⟨strLit "http://brouter.de/#lonlats=1,2", strLit "T",
        [⟨strLit "T", none, [(strLit "08:00", strLit "A")]⟩],
        false, false, false, true, true⟩
      (FileSys.mk (some ⟨requiredColumns,
        [⟨strLit "A", strLit "Stop A", ⟨5, 0⟩, ⟨6, 0⟩⟩]⟩) none none)
      ⟨requiredColumns, [⟨strLit "A", strLit "Stop A", ⟨5, 0⟩, ⟨6, 0⟩⟩]⟩
      ⟨strLit "T", none, [(strLit "08:00", strLit "A")]⟩
      rfl (by decide) rfl rfl rfl (by decide) rfl,
   c3_error_policy.2.2.2.1
      ⟨strLit "u", strLit "T", [], false, true, true, true, false⟩
      ⟨strLit "T", some (strLit "S"), []⟩ [(⟨1, 0⟩, ⟨2, 0⟩, 0)]
      (FileSys.mk none none none) rfl (by decide) (by decide) rfl,
   c3_error_policy.2.2.2.2
      ⟨strLit "http://brouter.de/#nogos=1,2,3", strLit "T", [],
        true, false, true, false, true⟩
      ⟨strLit "T", some (strLit "S"), []⟩ (FileSys.mk none none none)
      rfl (by decide) (by decide) rfl⟩

/-- Claim C4, code bug: `load_guides_from_csv` (main.py:92-105) groups
guides.csv rows into 4-tuples `(lon, lat, position, order)`, but
`generate_brouter_urls` (src/brouter.py:283-290) unpacks each guide as
exactly three values `lon, lat, position`; on any shape that actually
has guide annotations the unpacking raises `ValueError`, so the
generator never sorts, inserts, clamps or labels a single guide. -/
theorem c4_guide_unpack_value_error :
    load_guides_from_csv (some ⟨guidesRequiredColumns ++ [strLit "order"],
      [⟨strLit "S", ⟨2, 0⟩, ⟨1, 0⟩, 0, some 0⟩]⟩) =
      [(strLit "S", [GuideTup.g4 ⟨1, 0⟩ ⟨2, 0⟩ 0 0])] ∧
    GuideTup.unpack3 (GuideTup.g4 ⟨1, 0⟩ ⟨2, 0⟩ 0 0) = none ∧
    generate_brouter_urls
      [⟨strLit "T", some (strLit "S"), [(strLit "08:00", strLit "A")]⟩]
      [⟨strLit "A", ⟨1, 0⟩, ⟨2, 0⟩⟩] []
      (load_guides_from_csv (some ⟨guidesRequiredColumns ++ [strLit "order"],
        [⟨strLit "S", ⟨2, 0⟩, ⟨1, 0⟩, 0, some 0⟩]⟩)) [] =
      .error () :=
  ⟨rfl, rfl, rfl⟩
